import Mathlib

/-!
# crane: task decider and odometry interpolation

A shallow embedding of `src/tasks/auto_crane/decider.cpp` (the nine-state task
decider) and of `src/io/cboard/cboard.cpp` (`odom_at`, the bracketing interpolation
of the odometry stream, `callback`, the telemetry decoder, and `send`, the command
encoder), followed by the properties proved about them.

Conventions of the embedding:
* `double` values are idealised as rationals (`ℚ`): exact arithmetic, no NaN,
  no rounding.  Nothing below depends on rounding behaviour.
* the integer counters of `Decider` are declared in `decider.hpp`, which is not
  part of the sources at hand; they are embedded as unbounded integers (`Int`).
* member functions that mutate `*this` return the new object next to their
  result.
* members that a constructor leaves uninitialised (the positions of the two
  remembered samples of `CBoard`) are arguments of the constructed object: they
  stand for whatever the memory holds.
-/

/-- `Eigen::Vector2d`. -/
abbrev Vec2 := ℚ × ℚ

/-- `Eigen::Vector3d`. -/
abbrev Vec3 := ℚ × ℚ × ℚ

namespace io

/-- Modelled from the spec: `io::Command` of the absent `io/command.hpp`, the value
`{x, y, z, grip}` that `decide` builds positionally. -/
structure Command where
  x : ℚ
  y : ℚ
  z : ℚ
  grip : Bool
  deriving DecidableEq, Repr

/-- `CBoard::OdomData`: a position and its time point.  A `steady_clock::time_point`
is a whole number of clock ticks, embedded as an integer. -/
structure OdomData where
  xyz : Vec3
  t : Int
  deriving DecidableEq, Repr

/-- The members of `CBoard` that `odom_at` uses.  `queue` is the content of the
thread-safe queue, oldest sample first, with no producer running. -/
structure CBoard where
  queue : List OdomData
  data_ahead : OdomData
  data_behind : OdomData
  deriving DecidableEq, Repr

/-- The conversion of a tick count to `std::chrono::duration<double>` (seconds), with
the nanosecond tick of the usual `steady_clock`. -/
def seconds (ticks : Int) : ℚ := (ticks : ℚ) / 1000000000

/-- The expression `xyz_a + (xyz_b - xyz_a) * k` on 3-vectors. -/
def interpolate (xyz_a xyz_b : Vec3) (k : ℚ) : Vec3 :=
  (xyz_a.1 + (xyz_b.1 - xyz_a.1) * k,
    xyz_a.2.1 + (xyz_b.2.1 - xyz_a.2.1) * k,
    xyz_a.2.2 + (xyz_b.2.2 - xyz_a.2.2) * k)

/-- The `while (true)` loop of `odom_at`: each round pops the oldest sample into
`data_behind`, leaves the loop if its time point is after `t`, and otherwise copies it
to `data_ahead`.  The result is `data_ahead`, `data_behind` and the rest of the queue
at the `break`.  A pop on the empty queue blocks; with no producer the call does not
return, which is `none`. -/
def CBoard.popLoop (t : Int) : List OdomData → OdomData → Option (OdomData × OdomData × List OdomData)
  | [], _ => none
  | s :: rest, data_ahead =>
    if s.t > t then some (data_ahead, s, rest) else CBoard.popLoop t rest s

/-- `CBoard::odom_at`: the interpolated position and the object after the call, or
`none` when the call blocks for ever.  The quotient `t_ac / t_ab` is taken in `ℚ`,
where a zero divisor gives 0; the C++ division gives an infinity or a NaN there. -/
def CBoard.odom_at (cb : CBoard) (t : Int) : Option (Vec3 × CBoard) :=
  let data_ahead := if cb.data_behind.t < t then cb.data_behind else cb.data_ahead
  match CBoard.popLoop t cb.queue data_ahead with
  | none => none
  | some (data_ahead, data_behind, queue) =>
    let t_a := data_ahead.t
    let t_b := data_behind.t
    let t_c := t
    let t_ab := seconds (t_b - t_a)
    let t_ac := seconds (t_c - t_a)
    let xyz_a := data_ahead.xyz
    let xyz_b := data_behind.xyz
    let k := t_ac / t_ab
    let xyz_c := interpolate xyz_a xyz_b k
    some (xyz_c, { queue := queue, data_ahead := data_ahead, data_behind := data_behind })

/-- The loop of `odom_at` once more, with the state in which it stops made visible:
`data_ahead`, `data_behind` and the queue where the loop stops, and whether it stopped
at the `break` (`true`) or in a pop on the empty queue (`false`). -/
def CBoard.popState (t : Int) :
    List OdomData → OdomData → OdomData → OdomData × OdomData × List OdomData × Bool
  | [], data_ahead, data_behind => (data_ahead, data_behind, [], false)
  | s :: rest, data_ahead, _ =>
    if s.t > t then (data_ahead, s, rest, true) else CBoard.popState t rest s s

/-- Successive calls of `odom_at`, one per query time: the object after the last
call, or `none` as soon as a call blocks. -/
def CBoard.queries (cb : CBoard) : List Int → Option CBoard
  | [] => some cb
  | t :: ts =>
    match cb.odom_at t with
    | none => none
    | some r => r.2.queries ts

/-- The calls of `odom_at` that return, one per query time and up to the first call
that blocks: each query time with the object as the call leaves it, which holds the
pair the division is taken over. -/
def CBoard.trace (cb : CBoard) : List Int → List (Int × CBoard)
  | [] => []
  | t :: ts =>
    match cb.odom_at t with
    | none => []
    | some r => (t, r.2) :: r.2.trace ts

/-- `can_frame` of `linux/can.h`: identifier, length and the eight payload bytes. -/
structure can_frame where
  can_id : Nat
  can_dlc : Nat
  data : Fin 8 → Fin 256

/-- The conversion of an `int` to `int16_t`: the value modulo 2^16 in the signed
range. -/
def int16_t (n : Int) : Int := (n + 32768) % 65536 - 32768

/-- The conversion of an `int` to `__u8`, the type of a payload byte. -/
def u8 (n : Int) : Fin 256 := ⟨(n % 256).toNat, by omega⟩

/-- `CBoard::callback`, with the reading `now` of the steady clock as argument.  The
push is the push on a queue below its capacity: the sample is appended. -/
def CBoard.callback (cb : CBoard) (frame : can_frame) (now : Int) : CBoard :=
  let t := now
  if frame.can_id ≠ 0x101 then cb
  else
    let x : ℚ := (int16_t (((frame.data 0).val <<< 8 ||| (frame.data 1).val : Nat) : Int) : ℚ) / 1000
    let y : ℚ := (int16_t (((frame.data 2).val <<< 8 ||| (frame.data 3).val : Nat) : Int) : ℚ) / 1000
    let z : ℚ := (int16_t (((frame.data 4).val <<< 8 ||| (frame.data 5).val : Nat) : Int) : ℚ) / 1000
    { cb with queue := cb.queue ++ [⟨(x, y, z), t⟩] }

/-- Modelled from the spec: the four members of `io::Command` under the names that
`send` reads, in the order in which `decide` fills them; `io/command.hpp` is absent. -/
def Command.weights_x (c : Command) : ℚ := c.x

/-- Modelled from the spec: second member of `io::Command`, see `Command.weights_x`. -/
def Command.weights_y (c : Command) : ℚ := c.y

/-- Modelled from the spec: third member of `io::Command`, see `Command.weights_x`. -/
def Command.wood_x (c : Command) : ℚ := c.z

/-- Modelled from the spec: fourth member of `io::Command`, see `Command.weights_x`;
the flag counts as 0 or 1. -/
def Command.wood_y (c : Command) : ℚ := if c.grip = true then 1 else 0

/-- The cast `(int16_t)` of a member of the command: the fraction is dropped (towards
zero) and the integer is brought into the signed 16-bit range by wrapping, which is
what the spec records for values out of range. -/
def int16_cast (q : ℚ) : Int := int16_t (if 0 ≤ q then ⌊q⌋ else ⌈q⌉)

/-- `CBoard::send`: the frame handed to the bus. -/
def CBoard.send (command : Command) : can_frame :=
  { can_id := 0x100
    can_dlc := 8
    data := ![u8 (int16_cast command.weights_x >>> (8 : Nat)), u8 (int16_cast command.weights_x),
      u8 (int16_cast command.weights_y >>> (8 : Nat)), u8 (int16_cast command.weights_y),
      u8 (int16_cast command.wood_x >>> (8 : Nat)), u8 (int16_cast command.wood_x),
      u8 (int16_cast command.wood_y >>> (8 : Nat)), u8 (int16_cast command.wood_y)] }

/-- The reading of a value in 0..65535 as a two's-complement signed 16-bit integer,
as the wire format describes it; `int16_t` is compared with it. -/
def s16 (n : Int) : Int := if n < 32768 then n else n - 65536

/-- A telemetry frame with the payload `FF FE 00 01 80 00 09 09`. -/
def telemetryFrame : can_frame :=
  { can_id := 0x101, can_dlc := 8, data := ![255, 254, 0, 1, 128, 0, 9, 9] }

/-- The estimator as constructed: empty queue, both remembered samples
default-initialised, so with the clock's epoch as time point and unspecified
positions. -/
def CBoard.init (xyz_ahead xyz_behind : Vec3) : CBoard :=
  { queue := [], data_ahead := ⟨xyz_ahead, 0⟩, data_behind := ⟨xyz_behind, 0⟩ }

/-- Three buffered samples at ticks 10, 20 and 30 in a constructed estimator. -/
def threeSamples : CBoard :=
  { CBoard.init (0, 0, 0) (0, 0, 0) with
    queue := [⟨(1, 0, 0), 10⟩, ⟨(2, 0, 0), 20⟩, ⟨(4, 0, 0), 30⟩] }

end io

namespace auto_crane

open io (Command)

/-- The task states, in the order of the cycle (`State` of decider.hpp). -/
inductive State where
  | FOR_APPROX
  | FOR_WEIGHTS
  | BEFORE_CRAWL
  | CRAWLING
  | AFTER_CRAWL
  | FOR_WOOD
  | BEFORE_PLACE
  | PLACING
  | AFTER_PLACE
  deriving DecidableEq, Repr

/-- The target categories (`TargetName` of decider.hpp). -/
inductive TargetName where
  | CENTER
  | WEIGHT
  | SHORT_WOOD
  | TALL_WOOD
  | NONE
  deriving DecidableEq, Repr

/-- A target: map-frame position and category. -/
structure Target where
  t_target2map : Vec2
  name : TargetName
  deriving DecidableEq, Repr

/-- Modelled from the spec: `Target{}`, the value-initialised target of the absent
`decider.hpp`; the spec calls it the `NONE` target, with a zero/unset position. -/
def Target.none : Target := ⟨(0, 0), TargetName.NONE⟩

/-- The fields of `Decider` that the decision path reads or writes. -/
structure Decider where
  safe_height : ℚ
  crawl_height : ℚ
  short_place_height : ℚ
  tall_place_height : ℚ
  x_bias : ℚ
  y_bias : ℚ
  state : State
  min_shift_count : Int
  shift_count : Int
  circle_count : Int
  servo_count : Int
  deriving DecidableEq, Repr

/-- `Decider::Decider`: the six values read from the configuration file are the
arguments; the remaining fields get the constructor's constants. -/
def Decider.init (safe_height crawl_height short_place_height tall_place_height
    x_cam2gripper y_cam2gripper : ℚ) : Decider :=
  { safe_height := safe_height
    crawl_height := crawl_height
    short_place_height := short_place_height
    tall_place_height := tall_place_height
    x_bias := x_cam2gripper
    y_bias := y_cam2gripper
    state := State.FOR_APPROX
    min_shift_count := 5
    shift_count := 0
    circle_count := 1
    servo_count := 0 }

/-- The states in which `judge` uses the servo policy. -/
def State.servo : State → Bool
  | .CRAWLING | .AFTER_CRAWL | .FOR_WOOD | .BEFORE_PLACE => true
  | _ => false

/-- Squared Euclidean norm of the difference of two 3-vectors. -/
def distSq (p q : Vec3) : ℚ :=
  (p.1 - q.1) ^ 2 + (p.2.1 - q.2.1) ^ 2 + (p.2.2 - q.2.2) ^ 2

/-- `Decider::judge`.  In the servo states it counts the call and succeeds once the
count exceeds 5 with the signal set.  Elsewhere it compares the distance
`error = ‖p_gripper2odo - t_target2odo‖` with `judge_distance`; over exact
arithmetic `error <= judge_distance` is `0 ≤ judge_distance` together with
`error² ≤ judge_distance²`, which is how it is written here. -/
def Decider.judge (d : Decider) (p_gripper2odo t_target2odo : Vec3) (servo_state : Bool)
    (judge_distance : ℚ) : Bool × Decider :=
  if d.state = State.CRAWLING ∨ d.state = State.AFTER_CRAWL ∨ d.state = State.FOR_WOOD ∨
      d.state = State.BEFORE_PLACE then
    let d1 := { d with servo_count := d.servo_count + 1 }
    if d1.servo_count > 5 ∧ servo_state = true then
      (true, { d1 with servo_count := 0 })
    else
      (false, d1)
  else if 0 ≤ judge_distance ∧ distSq p_gripper2odo t_target2odo ≤ judge_distance ^ 2 then
    (true, d)
  else
    (false, d)

/-- `Decider::choose_target`. -/
def Decider.choose_target (d : Decider) (targets : List Target) : Target :=
  if d.state = State.FOR_APPROX then
    if d.circle_count = 1 then ⟨(6375 / 10000, 0), TargetName.CENTER⟩
    else if d.circle_count = 2 then ⟨(9188 / 10000, -4874 / 10000), TargetName.CENTER⟩
    else Target.none
  else if d.state = State.FOR_WEIGHTS ∨ d.state = State.BEFORE_CRAWL ∨
      d.state = State.CRAWLING ∨ d.state = State.AFTER_CRAWL then
    match targets.find? (fun t => t.name = TargetName.WEIGHT) with
    | some t => t
    | none => Target.none
  else
    if d.circle_count = 1 then ⟨(12 / 10, 0), TargetName.SHORT_WOOD⟩
    else if d.circle_count = 2 then ⟨(2205 / 1000, -755 / 1000), TargetName.TALL_WOOD⟩
    else Target.none

/-- `Decider::get_target_z`. -/
def Decider.get_target_z (d : Decider) (target : Target) : ℚ :=
  if d.state = State.FOR_APPROX ∨ d.state = State.FOR_WEIGHTS ∨ d.state = State.AFTER_CRAWL ∨
      d.state = State.FOR_WOOD ∨ d.state = State.AFTER_PLACE then
    d.safe_height
  else if d.state = State.BEFORE_CRAWL ∨ d.state = State.CRAWLING then
    d.crawl_height
  else
    if target.name = TargetName.SHORT_WOOD then d.short_place_height else d.tall_place_height

/-- `Decider::state_machine`. -/
def Decider.state_machine (d : Decider) (judge : Bool) : Decider :=
  if judge = false then d
  else
    let d1 := { d with shift_count := d.shift_count + 1 }
    if d1.shift_count > d1.min_shift_count then
      let d2 := { d1 with shift_count := 0 }
      match d2.state with
      | .FOR_APPROX =>
        { d2 with state := State.FOR_WEIGHTS, circle_count := d2.circle_count + 1 }
      | .FOR_WEIGHTS => { d2 with state := State.BEFORE_CRAWL }
      | .BEFORE_CRAWL => { d2 with state := State.CRAWLING }
      | .CRAWLING => { d2 with state := State.AFTER_CRAWL }
      | .AFTER_CRAWL => { d2 with state := State.FOR_WOOD }
      | .FOR_WOOD => { d2 with state := State.BEFORE_PLACE }
      | .BEFORE_PLACE => { d2 with state := State.PLACING }
      | .PLACING => { d2 with state := State.AFTER_PLACE }
      | .AFTER_PLACE => { d2 with state := State.FOR_APPROX }
    else d1

/-- The offset of step 3 of `decide`: the target's map position in `FOR_APPROX`, the
map position minus the odom-to-map offset elsewhere. -/
def Decider.target2odo (d : Decider) (target : Target) (t_odo2map : Vec2) : Vec2 :=
  if d.state = State.FOR_APPROX then target.t_target2map
  else (target.t_target2map.1 - t_odo2map.1, target.t_target2map.2 - t_odo2map.2)

/-- `Decider::decide`. -/
def Decider.decide (d : Decider) (p_gripper2odo : Vec3) (t_odo2map : Vec2)
    (targets : List Target) (servo_state : Bool) : Command × Decider :=
  if t_odo2map.1 = 1000000 then (⟨0, 0, 0, false⟩, d)
  else
    let target := d.choose_target targets
    let t_target2odo := d.target2odo target t_odo2map
    let p_target2odo : Vec3 := (t_target2odo.1, t_target2odo.2, d.get_target_z target)
    let r := d.judge p_gripper2odo p_target2odo servo_state (2 / 100)
    let shift := r.1
    let d2 := r.2.state_machine shift
    let place_height :=
      if target.name = TargetName.SHORT_WOOD then d2.short_place_height
      else d2.tall_place_height
    match d2.state with
    | .FOR_APPROX => (⟨target.t_target2map.1, target.t_target2map.2, d2.safe_height, false⟩, d2)
    | .FOR_WEIGHTS => (⟨t_target2odo.1, t_target2odo.2, d2.safe_height, false⟩, d2)
    | .BEFORE_CRAWL => (⟨t_target2odo.1, t_target2odo.2, d2.crawl_height, false⟩, d2)
    | .CRAWLING => (⟨t_target2odo.1, t_target2odo.2, d2.crawl_height, true⟩, d2)
    | .AFTER_CRAWL => (⟨t_target2odo.1, t_target2odo.2, d2.safe_height, true⟩, d2)
    | .FOR_WOOD => (⟨t_target2odo.1, t_target2odo.2, d2.safe_height, true⟩, d2)
    | .BEFORE_PLACE => (⟨t_target2odo.1, t_target2odo.2, place_height, true⟩, d2)
    | .PLACING => (⟨t_target2odo.1, t_target2odo.2, place_height, false⟩, d2)
    | .AFTER_PLACE => (⟨t_target2odo.1, t_target2odo.2, d2.safe_height, false⟩, d2)

/-- The successor of a state in the fixed cycle. -/
def State.next : State → State
  | .FOR_APPROX => .FOR_WEIGHTS
  | .FOR_WEIGHTS => .BEFORE_CRAWL
  | .BEFORE_CRAWL => .CRAWLING
  | .CRAWLING => .AFTER_CRAWL
  | .AFTER_CRAWL => .FOR_WOOD
  | .FOR_WOOD => .BEFORE_PLACE
  | .BEFORE_PLACE => .PLACING
  | .PLACING => .AFTER_PLACE
  | .AFTER_PLACE => .FOR_APPROX

/-- Successive calls of `state_machine`, one per readiness value. -/
def Decider.run (d : Decider) : List Bool → Decider
  | [] => d
  | b :: bs => (d.state_machine b).run bs

/-- Successive calls of `judge`, one per triple of gripper pose, target pose and
fine-positioning signal: the returned values in call order, and the final object. -/
def Decider.judgeSeq (d : Decider) (judge_distance : ℚ) :
    List (Vec3 × Vec3 × Bool) → List Bool × Decider
  | [] => ([], d)
  | i :: is =>
    let r := d.judge i.1 i.2.1 i.2.2 judge_distance
    let rest := r.2.judgeSeq judge_distance is
    (r.1 :: rest.1, rest.2)

/-- A Decider put in state `CRAWLING` with fresh counters, used for concrete runs. -/
def crawling0 : Decider :=
  { Decider.init 1 0 0 0 0 0 with state := State.CRAWLING, circle_count := 2 }

/-- A Decider at the end of its first cycle: `AFTER_PLACE`, second circle, one
confirmation short of the transition back to `FOR_APPROX`. -/
def afterPlace5 : Decider :=
  { Decider.init 1 0 0 0 0 0 with
    state := State.AFTER_PLACE, circle_count := 2, shift_count := 5 }

/-- Successive calls of `decide`, one per tuple of gripper pose, odom-to-map offset,
target list and fine-positioning signal: the object after the last call. -/
def Decider.decides (d : Decider) : List (Vec3 × Vec2 × List Target × Bool) → Decider
  | [] => d
  | i :: is => (d.decide i.1 i.2.1 i.2.2.1 i.2.2.2).2.decides is

/-- Eighteen calls that take the constructed Decider with unit safe height to
`CRAWLING`: six at the first approach waypoint, six above the default target, six on
it. -/
def toCrawling : List (Vec3 × Vec2 × List Target × Bool) :=
  List.replicate 6 ((6375 / 10000, 0, 1), (0, 0), [], false) ++
  (List.replicate 6 ((0, 0, 1), (0, 0), [], false) ++
  List.replicate 6 ((0, 0, 0), (0, 0), [], false))

/-- The calls of `toCrawling` followed by three runs of 36 calls with the signal
true: 126 calls that take the constructed Decider with unit safe height through
`CRAWLING`, `AFTER_CRAWL` and `FOR_WOOD` to `BEFORE_PLACE`. -/
def toBeforePlace : List (Vec3 × Vec2 × List Target × Bool) :=
  toCrawling ++ (List.replicate 36 ((0, 0, 0), (0, 0), [], true) ++
    (List.replicate 36 ((0, 0, 0), (0, 0), [], true) ++
      List.replicate 36 ((0, 0, 0), (0, 0), [], true)))

/-- The object after a non-sentinel `decide`: `judge` on the target pose built in
steps 2 to 4, then `state_machine` on its result. -/
def Decider.decided (d : Decider) (p_gripper2odo : Vec3) (t_odo2map : Vec2)
    (targets : List Target) (servo_state : Bool) : Decider :=
  (d.judge p_gripper2odo
      ((d.target2odo (d.choose_target targets) t_odo2map).1,
        (d.target2odo (d.choose_target targets) t_odo2map).2,
        d.get_target_z (d.choose_target targets)) servo_state (2 / 100)).2.state_machine
    (d.judge p_gripper2odo
      ((d.target2odo (d.choose_target targets) t_odo2map).1,
        (d.target2odo (d.choose_target targets) t_odo2map).2,
        d.get_target_z (d.choose_target targets)) servo_state (2 / 100)).1

/-! ## The transition function -/

theorem state_machine_false (d : Decider) : d.state_machine false = d := by
  simp [Decider.state_machine]

theorem state_machine_min (d : Decider) (b : Bool) :
    (d.state_machine b).min_shift_count = d.min_shift_count := by
  unfold Decider.state_machine
  cases b <;> simp
  split
  · cases d.state <;> rfl
  · rfl

/-- A successful call below the threshold only counts. -/
theorem state_machine_true_count (d : Decider)
    (h : ¬ d.shift_count + 1 > d.min_shift_count) :
    d.state_machine true = { d with shift_count := d.shift_count + 1 } := by
  simp [Decider.state_machine, h]

/-- A successful call that crosses the threshold: state and shift count. -/
theorem state_machine_true_shift (d : Decider)
    (h : d.shift_count + 1 > d.min_shift_count) :
    (d.state_machine true).state = d.state.next ∧ (d.state_machine true).shift_count = 0 := by
  simp only [Decider.state_machine, h]
  cases hs : d.state <;> simp [State.next]

/-- The run from a counter value `c ≤ 5`: the readiness values that are true are
counted modulo 6 and every sixth one advances the state. -/
theorem run_from (bs : List Bool) : ∀ (d : Decider) (c : Nat), d.min_shift_count = 5 →
    d.shift_count = (c : Int) → c ≤ 5 →
    (d.run bs).state = State.next^[(c + bs.count true) / 6] d.state ∧
    (d.run bs).shift_count = (((c + bs.count true) % 6 : Nat) : Int) := by
  induction bs with
  | nil =>
    intro d c _ hc hle
    have h1 : c / 6 = 0 := by omega
    have h2 : c % 6 = c := by omega
    simp [Decider.run, h1, h2, hc]
  | cons b bs ih =>
    intro d c hmin hc hle
    cases b with
    | false =>
      simpa [Decider.run, state_machine_false] using ih d c hmin hc hle
    | true =>
      have hmin2 := state_machine_min d true
      by_cases h5 : c = 5
      · have hgt : d.shift_count + 1 > d.min_shift_count := by rw [hc, hmin, h5]; decide
        obtain ⟨hs, hz⟩ := state_machine_true_shift d hgt
        have := ih (d.state_machine true) 0 (by rw [hmin2, hmin]) (by simpa using hz) (by omega)
        have e1 : (c + (true :: bs).count true) / 6 = (0 + bs.count true) / 6 + 1 := by
          simp [List.count_cons]; omega
        have e2 : (c + (true :: bs).count true) % 6 = (0 + bs.count true) % 6 := by
          simp [List.count_cons]; omega
        rw [e1, e2, Function.iterate_succ_apply, ← hs]
        exact this
      · have hng : ¬ d.shift_count + 1 > d.min_shift_count := by rw [hc, hmin]; omega
        have hst := state_machine_true_count d hng
        have := ih (d.state_machine true) (c + 1) (by rw [hmin2, hmin])
          (by rw [hst]; simp [hc]) (by omega)
        have e1 : c + (true :: bs).count true = c + 1 + bs.count true := by
          simp [List.count_cons]; omega
        rw [e1]
        simpa [Decider.run, hst] using this

/-- C1. Hysteresis of `state_machine`: a call with readiness false changes nothing;
from `shift_count = 0` with `min_shift_count = 5`, after any sequence of readiness
values holding `n` true ones the state is the starting state advanced `n / 6` steps
along the cycle and `shift_count` is `n % 6`; a single true call advances exactly when
the incremented counter exceeds 5, then by one step and with the counter reset, and
otherwise keeps the state and keeps the increment. -/
theorem state_machine_hysteresis (d : Decider) (h0 : d.shift_count = 0)
    (h5 : d.min_shift_count = 5) (bs : List Bool) :
    (∀ e : Decider, e.state_machine false = e) ∧
    (d.run bs).state = State.next^[bs.count true / 6] d.state ∧
    (d.run bs).shift_count = ((bs.count true % 6 : Nat) : Int) ∧
    (∀ e : Decider, e.min_shift_count = 5 →
      (e.shift_count + 1 > 5 →
        (e.state_machine true).state = e.state.next ∧
        (e.state_machine true).shift_count = 0) ∧
      (¬ e.shift_count + 1 > 5 →
        (e.state_machine true).state = e.state ∧
        (e.state_machine true).shift_count = e.shift_count + 1)) := by
  refine ⟨state_machine_false, ?_, ?_, ?_⟩
  · simpa using (run_from bs d 0 h5 (by simpa using h0) (by omega)).1
  · simpa using (run_from bs d 0 h5 (by simpa using h0) (by omega)).2
  · intro e he
    constructor
    · intro h
      exact state_machine_true_shift e (by rw [he]; exact h)
    · intro h
      rw [state_machine_true_count e (by rw [he]; exact h)]
      exact ⟨rfl, rfl⟩

theorem state_machine_hysteresis_witness :
    (Decider.init 1 0 0 0 0 0).shift_count = 0 ∧
    (Decider.init 1 0 0 0 0 0).min_shift_count = 5 ∧
    ((Decider.init 1 0 0 0 0 0).run (List.replicate 13 true ++ [false])).state
      = State.BEFORE_CRAWL ∧
    ((Decider.init 1 0 0 0 0 0).run (List.replicate 13 true ++ [false])).shift_count = 1 := by
  have h := state_machine_hysteresis (Decider.init 1 0 0 0 0 0) rfl rfl
    (List.replicate 13 true ++ [false])
  refine ⟨rfl, rfl, ?_, ?_⟩
  · rw [h.2.1]; decide
  · rw [h.2.2.1]; decide

theorem run_append (bs cs : List Bool) :
    ∀ d : Decider, d.run (bs ++ cs) = (d.run bs).run cs := by
  induction bs with
  | nil => intro d; rfl
  | cons b bs ih => intro d; simpa [Decider.run] using ih (d.state_machine b)

/-- One more call with readiness true, seen as the last call of the run. -/
theorem run_replicate_succ (d : Decider) (n : Nat) :
    d.run (List.replicate (n + 1) true) = (d.run (List.replicate n true)).state_machine true := by
  rw [List.replicate_succ', run_append]
  rfl

/-- What a successful call does to `circle_count`. -/
theorem state_machine_true_circle (d : Decider) :
    (d.state_machine true).circle_count =
      if d.state = State.FOR_APPROX ∧ d.shift_count + 1 > d.min_shift_count
      then d.circle_count + 1 else d.circle_count := by
  by_cases h : d.shift_count + 1 > d.min_shift_count
  · simp only [Decider.state_machine, h]
    cases hs : d.state <;> simp
  · rw [state_machine_true_count d h]
    simp [h]

/-- State and counter of the constructed Decider after `n` successful calls. -/
theorem init_run (sh ch sp tp xb yb : ℚ) (n : Nat) :
    ((Decider.init sh ch sp tp xb yb).run (List.replicate n true)).state
      = State.next^[n / 6] State.FOR_APPROX ∧
    ((Decider.init sh ch sp tp xb yb).run (List.replicate n true)).shift_count
      = ((n % 6 : Nat) : Int) ∧
    ((Decider.init sh ch sp tp xb yb).run (List.replicate n true)).min_shift_count = 5 := by
  have h := run_from (List.replicate n true) (Decider.init sh ch sp tp xb yb) 0 rfl rfl
    (by omega)
  refine ⟨?_, ?_, ?_⟩
  · simpa [Decider.init] using h.1
  · simpa using h.2
  · clear h
    induction n with
    | zero => rfl
    | succ n ih => rw [run_replicate_succ, state_machine_min, ih]

theorem next_iterate_ne (q : Nat) (h0 : 0 < q) (h8 : q ≤ 8) :
    State.next^[q] State.FOR_APPROX ≠ State.FOR_APPROX := by
  interval_cases q <;> decide

/-- Within the first 54 successful calls of the constructed Decider, the call after
`k` earlier ones changes `circle_count` exactly when `k = 5`. -/
theorem init_circle_step (sh ch sp tp xb yb : ℚ) (k : Nat) (hk : k < 54) :
    (((Decider.init sh ch sp tp xb yb).run (List.replicate k true)).state_machine
        true).circle_count =
      if k = 5 then
        ((Decider.init sh ch sp tp xb yb).run (List.replicate k true)).circle_count + 1
      else ((Decider.init sh ch sp tp xb yb).run (List.replicate k true)).circle_count := by
  obtain ⟨hs, hc, hm⟩ := init_run sh ch sp tp xb yb k
  rw [state_machine_true_circle, hs, hc, hm]
  by_cases h5 : k = 5
  · subst h5
    simp
  · rw [if_neg h5, if_neg]
    rintro ⟨h1, h2⟩
    have hq : k / 6 = 0 := by
      by_contra hne
      exact next_iterate_ne (k / 6) (by omega) (by omega) h1
    omega

theorem init_circle (sh ch sp tp xb yb : ℚ) (n : Nat) (hn : n ≤ 54) :
    ((Decider.init sh ch sp tp xb yb).run (List.replicate n true)).circle_count
      = if n < 6 then 1 else 2 := by
  induction n with
  | zero => rfl
  | succ n ih =>
    rw [run_replicate_succ, init_circle_step sh ch sp tp xb yb n (by omega), ih (by omega)]
    by_cases h5 : n = 5
    · subst h5; simp
    · by_cases h6 : n < 5
      · have : n + 1 < 6 := by omega
        have : n < 6 := by omega
        simp [*]
      · have : ¬ n + 1 < 6 := by omega
        have : ¬ n < 6 := by omega
        simp [*]

/-- C2. State cycle completeness: from the constructed Decider, 54 successive calls
with readiness true bring the state back to `FOR_APPROX` with `shift_count` 0 and
`circle_count` one more than at the start; among the 54 calls only the sixth, which
is the `FOR_APPROX → FOR_WEIGHTS` transition, changes `circle_count`. -/
theorem state_cycle_completeness (sh ch sp tp xb yb : ℚ) :
    ((Decider.init sh ch sp tp xb yb).run (List.replicate 54 true)).state
      = State.FOR_APPROX ∧
    ((Decider.init sh ch sp tp xb yb).run (List.replicate 54 true)).shift_count = 0 ∧
    ((Decider.init sh ch sp tp xb yb).run (List.replicate 54 true)).circle_count
      = (Decider.init sh ch sp tp xb yb).circle_count + 1 ∧
    ((Decider.init sh ch sp tp xb yb).run (List.replicate 5 true)).state
      = State.FOR_APPROX ∧
    ((Decider.init sh ch sp tp xb yb).run (List.replicate 6 true)).state
      = State.FOR_WEIGHTS ∧
    ∀ k : Fin 54,
      ((((Decider.init sh ch sp tp xb yb).run (List.replicate k.val true)).state_machine
          true).circle_count
        ≠ ((Decider.init sh ch sp tp xb yb).run (List.replicate k.val true)).circle_count
        ↔ k.val = 5) := by
  refine ⟨?_, ?_, ?_, ?_, ?_, ?_⟩
  · rw [(init_run sh ch sp tp xb yb 54).1]; decide
  · rw [(init_run sh ch sp tp xb yb 54).2.1]; decide
  · rw [init_circle sh ch sp tp xb yb 54 (by omega)]; rfl
  · rw [(init_run sh ch sp tp xb yb 5).1]; decide
  · rw [(init_run sh ch sp tp xb yb 6).1]; decide
  · intro k
    rw [init_circle_step sh ch sp tp xb yb k.val k.isLt]
    by_cases h5 : k.val = 5 <;> simp [h5]

/-! ## The readiness test -/

/-- In a servo state `judge` fails without the signal or below the count, and then
only counts the call. -/
theorem judge_servo_false (d : Decider) (p q : Vec3) (s : Bool) (jd : ℚ)
    (hs : d.state.servo = true) (h : ¬ (d.servo_count + 1 > 5 ∧ s = true)) :
    d.judge p q s jd = (false, { d with servo_count := d.servo_count + 1 }) := by
  unfold Decider.judge
  cases hst : d.state <;> simp_all [State.servo]

/-- In a servo state `judge` succeeds with the signal once the count exceeds 5, and
then resets the count. -/
theorem judge_servo_true (d : Decider) (p q : Vec3) (s : Bool) (jd : ℚ)
    (hs : d.state.servo = true) (h : d.servo_count + 1 > 5 ∧ s = true) :
    d.judge p q s jd = (true, { d with servo_count := 0 }) := by
  unfold Decider.judge
  cases hst : d.state <;> simp_all [State.servo]

theorem judge_state (d : Decider) (p q : Vec3) (s : Bool) (jd : ℚ) :
    (d.judge p q s jd).2.state = d.state := by
  simp only [Decider.judge]
  split_ifs <;> rfl

/-- C3. Sentinel short-circuit: with the first coordinate of the odom-to-map offset
equal to `1e6`, `decide` returns the command `{0, 0, 0, false}` and the Decider is
returned as it was (state, `circle_count`, `shift_count`, `servo_count` and every
other field), whatever the state, pose, targets and signal. -/
theorem decide_sentinel (d : Decider) (p : Vec3) (t_odo2map : Vec2) (targets : List Target)
    (s : Bool) (h : t_odo2map.1 = 1000000) :
    d.decide p t_odo2map targets s = (⟨0, 0, 0, false⟩, d) ∧
    (d.decide p t_odo2map targets s).2.state = d.state ∧
    (d.decide p t_odo2map targets s).2.circle_count = d.circle_count ∧
    (d.decide p t_odo2map targets s).2.shift_count = d.shift_count ∧
    (d.decide p t_odo2map targets s).2.servo_count = d.servo_count := by
  have e : d.decide p t_odo2map targets s = (⟨0, 0, 0, false⟩, d) := by
    simp [Decider.decide, h]
  rw [e]
  exact ⟨rfl, rfl, rfl, rfl, rfl⟩

theorem decide_sentinel_witness :
    ((1000000, 7) : Vec2).1 = 1000000 ∧
    crawling0.decide (1, 2, 3) (1000000, 7) [⟨(4, 5), TargetName.WEIGHT⟩] true
      = (⟨0, 0, 0, false⟩, crawling0) :=
  ⟨rfl, (decide_sentinel crawling0 (1, 2, 3) (1000000, 7) [⟨(4, 5), TargetName.WEIGHT⟩] true
    rfl).1⟩

theorem servo_iff (st : State) :
    st.servo = true ↔ (st = State.CRAWLING ∨ st = State.AFTER_CRAWL ∨ st = State.FOR_WOOD ∨
      st = State.BEFORE_PLACE) := by
  cases st <;> simp [State.servo]

/-- C4. Servo debounce count: in a servo state with `servo_count = 0`, six successive
`judge` calls with the signal true return false five times and then true, and leave
`servo_count` at 0; and in a servo state every call that returns false (a call with
the signal false is one) leaves `servo_count` incremented by one, while a call that
returns true leaves it at 0. -/
theorem servo_debounce (d : Decider) (hs : d.state.servo = true) (h0 : d.servo_count = 0)
    (jd : ℚ) (ps : List (Vec3 × Vec3)) (hl : ps.length = 6) :
    (d.judgeSeq jd (ps.map fun pq => (pq.1, pq.2, true))).1
      = [false, false, false, false, false, true] ∧
    (d.judgeSeq jd (ps.map fun pq => (pq.1, pq.2, true))).2.servo_count = 0 ∧
    (d.judgeSeq jd (ps.map fun pq => (pq.1, pq.2, true))).2.state = d.state ∧
    ∀ (e : Decider) (p q : Vec3) (s : Bool) (jd1 : ℚ), e.state.servo = true →
      ((e.judge p q s jd1).1 = false →
        (e.judge p q s jd1).2.servo_count = e.servo_count + 1) ∧
      ((e.judge p q s jd1).1 = true → (e.judge p q s jd1).2.servo_count = 0) ∧
      (s = false → (e.judge p q s jd1).1 = false) := by
  refine ⟨?_, ?_, ?_, ?_⟩
  · match ps, hl with
    | [a1, a2, a3, a4, a5, a6], _ =>
      have hst := (servo_iff d.state).1 hs
      simp [Decider.judgeSeq, Decider.judge, hst, h0]
  · match ps, hl with
    | [a1, a2, a3, a4, a5, a6], _ =>
      have hst := (servo_iff d.state).1 hs
      simp [Decider.judgeSeq, Decider.judge, hst, h0]
  · match ps, hl with
    | [a1, a2, a3, a4, a5, a6], _ =>
      simp [Decider.judgeSeq, judge_state]
  · intro e p q s jd1 he
    by_cases h : e.servo_count + 1 > 5 ∧ s = true
    · rw [judge_servo_true e p q s jd1 he h]
      simp
      exact h.2
    · rw [judge_servo_false e p q s jd1 he h]
      simp

theorem servo_debounce_witness :
    crawling0.state.servo = true ∧ crawling0.servo_count = 0 ∧
    (crawling0.judgeSeq (2 / 100)
      ((List.replicate 6 (((0, 0, 0) : Vec3), ((1, 1, 1) : Vec3))).map
        fun pq => (pq.1, pq.2, true))).1 = [false, false, false, false, false, true] :=
  ⟨rfl, rfl, (servo_debounce crawling0 rfl rfl (2 / 100)
    (List.replicate 6 (((0, 0, 0) : Vec3), ((1, 1, 1) : Vec3))) rfl).1⟩

/-- The run of `judge` calls in a servo state, from any counter value: a call that
returns true has its own signal set, comes after enough calls for the counter to
exceed 5, and is at least six calls after any earlier call that returned true. -/
theorem judgeSeq_true (jd : ℚ) (ins : List (Vec3 × Vec3 × Bool)) :
    ∀ (d : Decider) (i : Nat), d.state.servo = true →
      (d.judgeSeq jd ins).1[i]? = some true →
      (ins[i]?.map fun x => x.2.2) = some true ∧
      d.servo_count + (i : Int) + 1 > 5 ∧
      ∀ j : Nat, j < i → (d.judgeSeq jd ins).1[j]? = some true → j + 6 ≤ i := by
  induction ins with
  | nil =>
    intro d i _ h
    simp [Decider.judgeSeq] at h
  | cons x xs ih =>
    intro d i hs h
    have hs2 : (d.judge x.1 x.2.1 x.2.2 jd).2.state.servo = true := by
      rw [judge_state]; exact hs
    by_cases hc : d.servo_count + 1 > 5 ∧ x.2.2 = true
    · have hj := judge_servo_true d x.1 x.2.1 x.2.2 jd hs hc
      cases i with
      | zero =>
        refine ⟨by simpa using hc.2, by simpa using hc.1, ?_⟩
        intro j hj0
        omega
      | succ i =>
        have h2 : ((d.judge x.1 x.2.1 x.2.2 jd).2.judgeSeq jd xs).1[i]? = some true := by
          simpa [Decider.judgeSeq] using h
        obtain ⟨a, b, c⟩ := ih _ i hs2 h2
        rw [hj] at b
        refine ⟨by simpa using a, ?_, ?_⟩
        · have := hc.1
          push_cast
          omega
        · intro j hji hjt
          cases j with
          | zero =>
            simp at b
            omega
          | succ j =>
            have h3 : ((d.judge x.1 x.2.1 x.2.2 jd).2.judgeSeq jd xs).1[j]? = some true := by
              simpa [Decider.judgeSeq] using hjt
            have := c j (by omega) h3
            omega
    · have hj := judge_servo_false d x.1 x.2.1 x.2.2 jd hs hc
      cases i with
      | zero =>
        simp [Decider.judgeSeq, hj] at h
      | succ i =>
        have h2 : ((d.judge x.1 x.2.1 x.2.2 jd).2.judgeSeq jd xs).1[i]? = some true := by
          simpa [Decider.judgeSeq] using h
        obtain ⟨a, b, c⟩ := ih _ i hs2 h2
        rw [hj] at b
        refine ⟨by simpa using a, ?_, ?_⟩
        · simp at b
          push_cast
          omega
        · intro j hji hjt
          cases j with
          | zero =>
            simp [Decider.judgeSeq, hj] at hjt
          | succ j =>
            have h3 : ((d.judge x.1 x.2.1 x.2.2 jd).2.judgeSeq jd xs).1[j]? = some true := by
              simpa [Decider.judgeSeq] using hjt
            have := c j (by omega) h3
            omega

/-- The run of `judge` calls in a servo state, from any counter value, the other way
round: a call with its signal set returns true as soon as enough calls have been made
since the start (for the counter to exceed 5) or an earlier call returned true, and
every earlier call that returned true lies at least six calls back. -/
theorem judgeSeq_true_of (jd : ℚ) (ins : List (Vec3 × Vec3 × Bool)) :
    ∀ (d : Decider) (i : Nat), d.state.servo = true →
      (ins[i]?.map fun x => x.2.2) = some true →
      (d.servo_count + (i : Int) + 1 > 5 ∨
        ∃ j : Nat, j < i ∧ (d.judgeSeq jd ins).1[j]? = some true) →
      (∀ j : Nat, j < i → (d.judgeSeq jd ins).1[j]? = some true → j + 6 ≤ i) →
      (d.judgeSeq jd ins).1[i]? = some true := by
  induction ins with
  | nil =>
    intro d i _ h
    simp at h
  | cons x xs ih =>
    intro d i hs hsig hcnt hall
    have hs2 : (d.judge x.1 x.2.1 x.2.2 jd).2.state.servo = true := by
      rw [judge_state]; exact hs
    cases i with
    | zero =>
      have hx : x.2.2 = true := by simpa using hsig
      have hc : d.servo_count + 1 > 5 := by
        rcases hcnt with h | ⟨j, hj, _⟩
        · simpa using h
        · omega
      simp [Decider.judgeSeq, judge_servo_true d x.1 x.2.1 x.2.2 jd hs ⟨hc, hx⟩]
    | succ i =>
      have hsig2 : (xs[i]?.map fun x => x.2.2) = some true := by simpa using hsig
      have hall2 : ∀ j : Nat, j < i →
          ((d.judge x.1 x.2.1 x.2.2 jd).2.judgeSeq jd xs).1[j]? = some true → j + 6 ≤ i := by
        intro j hj hjt
        have := hall (j + 1) (by omega) (by simpa [Decider.judgeSeq] using hjt)
        omega
      have key : ((d.judge x.1 x.2.1 x.2.2 jd).2.judgeSeq jd xs).1[i]? = some true := by
        apply ih _ i hs2 hsig2 _ hall2
        by_cases hc : d.servo_count + 1 > 5 ∧ x.2.2 = true
        · have hj := judge_servo_true d x.1 x.2.1 x.2.2 jd hs hc
          have h0 := hall 0 (by omega) (by simp [Decider.judgeSeq, hj])
          left
          rw [hj]
          show (0 : Int) + (i : Int) + 1 > 5
          omega
        · have hj := judge_servo_false d x.1 x.2.1 x.2.2 jd hs hc
          rcases hcnt with h | ⟨j, hji, hjt⟩
          · left
            rw [hj]
            show d.servo_count + 1 + (i : Int) + 1 > 5
            push_cast at h
            omega
          · cases j with
            | zero => simp [Decider.judgeSeq, hj] at hjt
            | succ j =>
              right
              exact ⟨j, by omega, by simpa [Decider.judgeSeq] using hjt⟩
      simpa [Decider.judgeSeq] using key

/-- C5, as the code has it. In a servo state, starting from `servo_count = 0`, a
`judge` call returns true exactly when the signal is true on that very call, the call
is at least the sixth of the sequence, and every earlier call that returned true lies
at least six calls back; `servo_count` counts calls, so the signal values of the
earlier calls play no part.  In particular, after any number `n ≥ 5` of calls with the
signal false, a single call with the signal true returns true. -/
theorem servo_confirmation (d : Decider) (hs : d.state.servo = true)
    (h0 : d.servo_count = 0) (jd : ℚ) :
    (∀ (ins : List (Vec3 × Vec3 × Bool)) (i : Nat),
      (d.judgeSeq jd ins).1[i]? = some true ↔
        ((ins[i]?.map fun x => x.2.2) = some true ∧ 5 ≤ i ∧
          ∀ j : Nat, j < i → (d.judgeSeq jd ins).1[j]? = some true → j + 6 ≤ i)) ∧
    (∀ (n : Nat) (p q : Vec3), 5 ≤ n →
      (d.judgeSeq jd (List.replicate n (p, q, false) ++ [(p, q, true)])).1
        = List.replicate n false ++ [true]) := by
  have hiff : ∀ (ins : List (Vec3 × Vec3 × Bool)) (i : Nat),
      (d.judgeSeq jd ins).1[i]? = some true ↔
        ((ins[i]?.map fun x => x.2.2) = some true ∧ 5 ≤ i ∧
          ∀ j : Nat, j < i → (d.judgeSeq jd ins).1[j]? = some true → j + 6 ≤ i) := by
    intro ins i
    constructor
    · intro hi
      obtain ⟨a, b, c⟩ := judgeSeq_true jd ins d i hs hi
      refine ⟨a, ?_, c⟩
      rw [h0] at b
      omega
    · rintro ⟨a, b, c⟩
      apply judgeSeq_true_of jd ins d i hs a _ c
      left
      rw [h0]
      omega
  refine ⟨hiff, ?_⟩
  intro n p q hn
  have hlen : ∀ (l : List (Vec3 × Vec3 × Bool)) (e : Decider),
      (e.judgeSeq jd l).1.length = l.length := by
    intro l
    induction l with
    | nil => intro e; rfl
    | cons x xs ih => intro e; simp [Decider.judgeSeq, ih]
  apply List.ext_getElem?
  intro i
  by_cases hin : i < n
  · -- a call with the signal false does not return true
    have hnot : ¬ (d.judgeSeq jd (List.replicate n (p, q, false) ++ [(p, q, true)])).1[i]?
        = some true := by
      rw [hiff]
      rintro ⟨a, _, _⟩
      rw [List.getElem?_append_left (by simpa using hin)] at a
      simp [List.getElem?_replicate, hin] at a
    have hlt : i < (d.judgeSeq jd
        (List.replicate n (p, q, false) ++ [(p, q, true)])).1.length := by
      rw [hlen]; simp; omega
    rw [List.getElem?_eq_getElem hlt] at hnot ⊢
    rw [List.getElem?_append_left (by simpa using hin)]
    simp only [List.getElem?_replicate, hin, if_true, Option.some.injEq]
    cases hb : (d.judgeSeq jd (List.replicate n (p, q, false) ++ [(p, q, true)])).1[i] with
    | false => rfl
    | true => rw [hb] at hnot; exact absurd rfl hnot
  · by_cases hie : i = n
    · subst hie
      have hfalse : ∀ j : Nat, j < i →
          ¬ (d.judgeSeq jd (List.replicate i (p, q, false) ++ [(p, q, true)])).1[j]?
            = some true := by
        intro j hj
        rw [hiff]
        rintro ⟨a, _, _⟩
        rw [List.getElem?_append_left (by simpa using hj)] at a
        simp [List.getElem?_replicate, hj] at a
      rw [(hiff _ i).2 ⟨by simp [List.getElem?_append_right], hn,
        fun j hj hjt => absurd hjt (hfalse j hj)⟩]
      simp [List.getElem?_append_right]
    · have h1 : (d.judgeSeq jd
          (List.replicate n (p, q, false) ++ [(p, q, true)])).1.length ≤ i := by
        rw [hlen]; simp; omega
      rw [List.getElem?_eq_none h1, List.getElem?_eq_none (by simp; omega)]

theorem servo_confirmation_witness :
    crawling0.state.servo = true ∧ crawling0.servo_count = 0 ∧
    (crawling0.judgeSeq (2 / 100)
      (List.replicate 7 (((0, 0, 0) : Vec3), ((1, 1, 1) : Vec3), false) ++
        [(((0, 0, 0) : Vec3), ((1, 1, 1) : Vec3), true)])).1
      = [false, false, false, false, false, false, false, true] :=
  ⟨rfl, rfl, (servo_confirmation crawling0 rfl rfl (2 / 100)).2 7 (0, 0, 0) (1, 1, 1)
    (by norm_num)⟩

/-- C5, refuted as stated. In `CRAWLING` with `servo_count = 0`, five calls with the
signal false followed by one call with the signal true make the sixth call return
true, although the signal was true on a single call. -/
theorem servo_confirmation_counterexample :
    crawling0.state = State.CRAWLING ∧ crawling0.servo_count = 0 ∧
    (crawling0.judgeSeq (2 / 100)
      (List.replicate 5 (((0, 0, 0) : Vec3), ((1, 1, 1) : Vec3), false) ++
        [(((0, 0, 0) : Vec3), ((1, 1, 1) : Vec3), true)])).1
      = [false, false, false, false, false, true] ∧
    ((List.replicate 5 (((0, 0, 0) : Vec3), ((1, 1, 1) : Vec3), false) ++
        [(((0, 0, 0) : Vec3), ((1, 1, 1) : Vec3), true)]).map fun x => x.2.2).count true = 1 ∧
    ¬ 5 < ((List.replicate 5 (((0, 0, 0) : Vec3), ((1, 1, 1) : Vec3), false) ++
        [(((0, 0, 0) : Vec3), ((1, 1, 1) : Vec3), true)]).map fun x => x.2.2).count true := by
  refine ⟨rfl, rfl, ?_, ?_, ?_⟩
  · simp [Decider.judgeSeq, Decider.judge, crawling0, Decider.init, List.replicate]
  · simp [List.replicate]
  · simp [List.replicate]

/-! ## The decision cycle -/

/-- A call of `state_machine` keeps the state or moves it to its successor. -/
theorem state_machine_state (d : Decider) (b : Bool) :
    (d.state_machine b).state = d.state ∨ (d.state_machine b).state = d.state.next := by
  cases b with
  | false => left; rw [state_machine_false]
  | true =>
    by_cases h : d.shift_count + 1 > d.min_shift_count
    · right; exact (state_machine_true_shift d h).1
    · left; rw [state_machine_true_count d h]

/-- The configured heights are not touched by `judge` and `state_machine`. -/
theorem state_machine_heights (d : Decider) (b : Bool) :
    (d.state_machine b).safe_height = d.safe_height ∧
    (d.state_machine b).crawl_height = d.crawl_height ∧
    (d.state_machine b).short_place_height = d.short_place_height ∧
    (d.state_machine b).tall_place_height = d.tall_place_height := by
  cases b with
  | false => rw [state_machine_false]; exact ⟨rfl, rfl, rfl, rfl⟩
  | true =>
    by_cases h : d.shift_count + 1 > d.min_shift_count
    · simp only [Decider.state_machine, h]
      cases hs : d.state <;> simp
    · rw [state_machine_true_count d h]; exact ⟨rfl, rfl, rfl, rfl⟩

theorem decide_snd (d : Decider) (p : Vec3) (off : Vec2) (targets : List Target) (s : Bool)
    (h : off.1 ≠ 1000000) :
    (d.decide p off targets s).2 = d.decided p off targets s := by
  simp only [Decider.decide, if_neg h, Decider.decided]
  split <;> rfl

/-- The command of a non-sentinel `decide`, by the state after the call. -/
theorem decide_fst (d : Decider) (p : Vec3) (off : Vec2) (targets : List Target) (s : Bool)
    (h : off.1 ≠ 1000000) :
    (d.decide p off targets s).1 =
      match (d.decided p off targets s).state with
      | .FOR_APPROX =>
        ⟨(d.choose_target targets).t_target2map.1, (d.choose_target targets).t_target2map.2,
          (d.decided p off targets s).safe_height, false⟩
      | .FOR_WEIGHTS =>
        ⟨(d.target2odo (d.choose_target targets) off).1,
          (d.target2odo (d.choose_target targets) off).2,
          (d.decided p off targets s).safe_height, false⟩
      | .BEFORE_CRAWL =>
        ⟨(d.target2odo (d.choose_target targets) off).1,
          (d.target2odo (d.choose_target targets) off).2,
          (d.decided p off targets s).crawl_height, false⟩
      | .CRAWLING =>
        ⟨(d.target2odo (d.choose_target targets) off).1,
          (d.target2odo (d.choose_target targets) off).2,
          (d.decided p off targets s).crawl_height, true⟩
      | .AFTER_CRAWL =>
        ⟨(d.target2odo (d.choose_target targets) off).1,
          (d.target2odo (d.choose_target targets) off).2,
          (d.decided p off targets s).safe_height, true⟩
      | .FOR_WOOD =>
        ⟨(d.target2odo (d.choose_target targets) off).1,
          (d.target2odo (d.choose_target targets) off).2,
          (d.decided p off targets s).safe_height, true⟩
      | .BEFORE_PLACE =>
        ⟨(d.target2odo (d.choose_target targets) off).1,
          (d.target2odo (d.choose_target targets) off).2,
          if (d.choose_target targets).name = TargetName.SHORT_WOOD
          then (d.decided p off targets s).short_place_height
          else (d.decided p off targets s).tall_place_height, true⟩
      | .PLACING =>
        ⟨(d.target2odo (d.choose_target targets) off).1,
          (d.target2odo (d.choose_target targets) off).2,
          if (d.choose_target targets).name = TargetName.SHORT_WOOD
          then (d.decided p off targets s).short_place_height
          else (d.decided p off targets s).tall_place_height, false⟩
      | .AFTER_PLACE =>
        ⟨(d.target2odo (d.choose_target targets) off).1,
          (d.target2odo (d.choose_target targets) off).2,
          (d.decided p off targets s).safe_height, false⟩ := by
  simp only [Decider.decide, if_neg h, Decider.decided]
  split <;> simp_all

theorem decided_state (d : Decider) (p : Vec3) (off : Vec2) (targets : List Target)
    (s : Bool) :
    (d.decided p off targets s).state = d.state ∨
    (d.decided p off targets s).state = d.state.next := by
  have h := state_machine_state
    (d.judge p ((d.target2odo (d.choose_target targets) off).1,
        (d.target2odo (d.choose_target targets) off).2,
        d.get_target_z (d.choose_target targets)) s (2 / 100)).2
    (d.judge p ((d.target2odo (d.choose_target targets) off).1,
        (d.target2odo (d.choose_target targets) off).2,
        d.get_target_z (d.choose_target targets)) s (2 / 100)).1
  rw [judge_state] at h
  exact h

/-- C6, as the code has it. On a non-sentinel call the command's x and y are the
chosen target's map-frame position when the state after the call is `FOR_APPROX`, and
the offset of step 3 when it is any other state; so they are the offset of step 3 on
every call except the one that moves the state from `AFTER_PLACE` to `FOR_APPROX`. -/
theorem decide_xy (d : Decider) (p : Vec3) (off : Vec2) (targets : List Target) (s : Bool)
    (h : off.1 ≠ 1000000) :
    ((d.decide p off targets s).2.state = State.FOR_APPROX →
      ((d.decide p off targets s).1.x, (d.decide p off targets s).1.y)
        = (d.choose_target targets).t_target2map) ∧
    ((d.decide p off targets s).2.state ≠ State.FOR_APPROX →
      ((d.decide p off targets s).1.x, (d.decide p off targets s).1.y)
        = d.target2odo (d.choose_target targets) off) ∧
    (¬ (d.state = State.AFTER_PLACE ∧ (d.decide p off targets s).2.state = State.FOR_APPROX) →
      ((d.decide p off targets s).1.x, (d.decide p off targets s).1.y)
        = d.target2odo (d.choose_target targets) off) := by
  rw [decide_fst d p off targets s h, decide_snd d p off targets s h]
  have hst := decided_state d p off targets s
  refine ⟨?_, ?_, ?_⟩
  · intro h1
    rw [h1]
  · intro h1
    cases h2 : (d.decided p off targets s).state <;> first | exact absurd h2 h1 | rfl
  · intro h1
    cases h2 : (d.decided p off targets s).state <;> try rfl
    have h3 : d.state = State.FOR_APPROX := by
      rw [h2] at hst
      rcases hst with h4 | h4
      · exact h4.symm
      · exfalso
        apply h1
        refine ⟨?_, h2⟩
        revert h4
        cases d.state <;> simp [State.next]
    simp [Decider.target2odo, h3]

theorem decide_xy_witness :
    ((1, 0) : Vec2).1 ≠ 1000000 ∧
    (((afterPlace5.decide (1205 / 1000, -755 / 1000, 1) (1, 0) [] false).1.x,
      (afterPlace5.decide (1205 / 1000, -755 / 1000, 1) (1, 0) [] false).1.y) : Vec2)
      = (2205 / 1000, -755 / 1000) := by
  have hne : ((1, 0) : Vec2).1 ≠ 1000000 := by norm_num
  refine ⟨hne, ?_⟩
  rw [(decide_xy afterPlace5 (1205 / 1000, -755 / 1000, 1) (1, 0) [] false hne).1]
  · simp [Decider.choose_target, afterPlace5, Decider.init]
  · simp [Decider.decide, Decider.choose_target, Decider.target2odo, Decider.get_target_z,
      Decider.judge, Decider.state_machine, distSq, afterPlace5, Decider.init]
    norm_num

/-- C6, refuted as stated. In `AFTER_PLACE` on the second circle with `shift_count = 5`
and the gripper at the target, the call moves the state to `FOR_APPROX` and returns
x = 2.205, the map-frame position of the waypoint, while the offset computed in step 3
of that call is 2.205 - 1 = 1.205. -/
theorem decide_xy_counterexample :
    ((1, 0) : Vec2).1 ≠ 1000000 ∧
    afterPlace5.state = State.AFTER_PLACE ∧
    (afterPlace5.decide (1205 / 1000, -755 / 1000, 1) (1, 0) [] false).2.state
      = State.FOR_APPROX ∧
    (afterPlace5.decide (1205 / 1000, -755 / 1000, 1) (1, 0) [] false).1.x = 2205 / 1000 ∧
    (afterPlace5.target2odo (afterPlace5.choose_target []) (1, 0)).1 = 1205 / 1000 ∧
    (afterPlace5.decide (1205 / 1000, -755 / 1000, 1) (1, 0) [] false).1.x
      ≠ (afterPlace5.target2odo (afterPlace5.choose_target []) (1, 0)).1 := by
  simp [Decider.decide, Decider.choose_target, Decider.target2odo, Decider.get_target_z,
    Decider.judge, Decider.state_machine, distSq, afterPlace5, Decider.init]
  norm_num

/-- C7. Command z and grip follow the state after the call: on a non-sentinel call
the grip flag is true exactly when the state after the call is `CRAWLING`,
`AFTER_CRAWL`, `FOR_WOOD` or `BEFORE_PLACE`, and z is `get_target_z` of the Decider
after the call on the target chosen during the call. -/
theorem decide_z_grip (d : Decider) (p : Vec3) (off : Vec2) (targets : List Target)
    (s : Bool) (h : off.1 ≠ 1000000) :
    ((d.decide p off targets s).1.grip = true ↔
      ((d.decide p off targets s).2.state = State.CRAWLING ∨
        (d.decide p off targets s).2.state = State.AFTER_CRAWL ∨
        (d.decide p off targets s).2.state = State.FOR_WOOD ∨
        (d.decide p off targets s).2.state = State.BEFORE_PLACE)) ∧
    (d.decide p off targets s).1.z
      = (d.decide p off targets s).2.get_target_z (d.choose_target targets) := by
  rw [decide_fst d p off targets s h, decide_snd d p off targets s h]
  cases h2 : (d.decided p off targets s).state <;> simp [Decider.get_target_z, h2]

theorem decide_z_grip_witness :
    ((1, 0) : Vec2).1 ≠ 1000000 ∧
    (afterPlace5.decide (1205 / 1000, -755 / 1000, 1) (1, 0) [] false).1.z
      = (afterPlace5.decide (1205 / 1000, -755 / 1000, 1) (1, 0) []
          false).2.get_target_z (afterPlace5.choose_target []) :=
  ⟨by norm_num,
    (decide_z_grip afterPlace5 (1205 / 1000, -755 / 1000, 1) (1, 0) [] false
      (by norm_num)).2⟩

/-- The weight states of `choose_target`. -/
theorem choose_target_weight (d : Decider) (targets : List Target)
    (hs : d.state = State.FOR_WEIGHTS ∨ d.state = State.BEFORE_CRAWL ∨
      d.state = State.CRAWLING ∨ d.state = State.AFTER_CRAWL) :
    d.choose_target targets =
      match targets.find? (fun t => t.name = TargetName.WEIGHT) with
      | some t => t
      | none => Target.none := by
  have h1 : d.state ≠ State.FOR_APPROX := by
    rcases hs with h | h | h | h <;> rw [h] <;> decide
  simp only [Decider.choose_target, if_neg h1, if_pos hs]

/-- C8. Weight target selection and missing-weight fallback: in `FOR_WEIGHTS`,
`BEFORE_CRAWL`, `CRAWLING` and `AFTER_CRAWL`, whatever `circle_count` is,
`choose_target` returns the first `WEIGHT` element of the list when there is one and
the default `NONE` target when there is none (the empty list included); in that case a
non-sentinel `decide` returns a command whose x, y are the `NONE` target's position
minus the odom-to-map offset. -/
theorem choose_target_weights (d : Decider) (targets : List Target)
    (hs : d.state = State.FOR_WEIGHTS ∨ d.state = State.BEFORE_CRAWL ∨
      d.state = State.CRAWLING ∨ d.state = State.AFTER_CRAWL) :
    (∀ (pre post : List Target) (t : Target), targets = pre ++ t :: post →
      (∀ u ∈ pre, u.name ≠ TargetName.WEIGHT) → t.name = TargetName.WEIGHT →
      d.choose_target targets = t) ∧
    ((∀ u ∈ targets, u.name ≠ TargetName.WEIGHT) →
      d.choose_target targets = Target.none ∧
      Target.none.name = TargetName.NONE ∧
      ∀ (p : Vec3) (off : Vec2) (s : Bool), off.1 ≠ 1000000 →
        (d.decide p off targets s).1.x = Target.none.t_target2map.1 - off.1 ∧
        (d.decide p off targets s).1.y = Target.none.t_target2map.2 - off.2) := by
  have hc := choose_target_weight d targets hs
  constructor
  · intro pre post t ht hpre hw
    rw [hc, ht, List.find?_append]
    have h1 : pre.find? (fun t => t.name = TargetName.WEIGHT) = none := by
      rw [List.find?_eq_none]
      intro u hu
      simpa using hpre u hu
    simp [h1, hw]
  · intro hnone
    have h1 : targets.find? (fun t => t.name = TargetName.WEIGHT) = none := by
      rw [List.find?_eq_none]
      intro u hu
      simpa using hnone u hu
    have h2 : d.choose_target targets = Target.none := by rw [hc, h1]
    refine ⟨h2, rfl, ?_⟩
    intro p off s hoff
    have h3 : (d.decided p off targets s).state ≠ State.FOR_APPROX := by
      rcases decided_state d p off targets s with h4 | h4 <;> rw [h4] <;>
        rcases hs with h | h | h | h <;> rw [h] <;> decide
    have h5 : d.state ≠ State.FOR_APPROX := by
      rcases hs with h | h | h | h <;> rw [h] <;> decide
    rw [decide_fst d p off targets s hoff, h2]
    cases h6 : (d.decided p off targets s).state <;>
      first
        | exact absurd h6 h3
        | simp [Decider.target2odo, h5]

theorem choose_target_weights_witness :
    crawling0.choose_target
      [⟨(1, 1), TargetName.CENTER⟩, ⟨(2, 2), TargetName.WEIGHT⟩, ⟨(3, 3), TargetName.WEIGHT⟩]
      = ⟨(2, 2), TargetName.WEIGHT⟩ :=
  (choose_target_weights crawling0
    [⟨(1, 1), TargetName.CENTER⟩, ⟨(2, 2), TargetName.WEIGHT⟩, ⟨(3, 3), TargetName.WEIGHT⟩]
    (Or.inr (Or.inr (Or.inl rfl)))).1 [⟨(1, 1), TargetName.CENTER⟩]
    [⟨(3, 3), TargetName.WEIGHT⟩] ⟨(2, 2), TargetName.WEIGHT⟩ rfl (by simp) rfl

end auto_crane

namespace io

/-! ## The odometry interpolation -/

/-- The interpolation factor does not depend on the unit of the durations. -/
theorem seconds_div (a b : Int) : seconds a / seconds b = (a : ℚ) / (b : ℚ) := by
  unfold seconds
  exact div_div_div_cancel_right₀ (by norm_num) _ _

/-- The loop on a queue that starts with a sample not after `t` followed by a sample
after `t`: two pops, and these two samples are the remembered pair. -/
theorem popLoop_pair (t : Int) (A B a0 : OdomData) (rest : List OdomData)
    (hA : A.t ≤ t) (hB : t < B.t) :
    CBoard.popLoop t (A :: B :: rest) a0 = some (A, B, rest) := by
  have h1 : ¬ A.t > t := by omega
  have h2 : B.t > t := by omega
  simp [CBoard.popLoop, h1, h2]

theorem odom_at_pair (t : Int) (A B a0 b0 : OdomData) (rest : List OdomData)
    (hA : A.t ≤ t) (hB : t < B.t) :
    (CBoard.odom_at ⟨A :: B :: rest, a0, b0⟩ t) =
      some (interpolate A.xyz B.xyz (((t - A.t : Int) : ℚ) / ((B.t - A.t : Int) : ℚ)),
        ⟨rest, A, B⟩) := by
  simp only [CBoard.odom_at, popLoop_pair t A B _ rest hA hB, seconds_div]

/-- C9. Interpolation formula and exactness.  Whenever `odom_at t` returns, each
coordinate of its result is `ahead + k * (behind - ahead)` on that coordinate of the
samples remembered at the return, with `k = (t - ahead.t) / (behind.t - ahead.t)`.  On
an estimator whose queue starts with sample A at `t0` followed by sample B at `t1`,
whatever its remembered samples are (those of a fresh estimator included), the first
query at a time `t` with `t0 ≤ t < t1` returns, coordinate by coordinate,
`A + ((t - t0) / (t1 - t0)) * (B - A)`, which is `A.xyz` at `t = t0`; for
A = (0,0,0) and B = (10,0,0) the query at the midpoint of `t0` and `t1` returns
(5,0,0), and for A = (1,2,3), B = (3,8,-5) it returns (2,5,-1). -/
theorem odom_at_interpolation :
    (∀ (cb cb1 : CBoard) (t : Int) (r : Vec3), cb.odom_at t = some (r, cb1) →
      r = (cb1.data_ahead.xyz.1 +
            ((t - cb1.data_ahead.t : Int) : ℚ) / ((cb1.data_behind.t - cb1.data_ahead.t : Int) : ℚ)
              * (cb1.data_behind.xyz.1 - cb1.data_ahead.xyz.1),
          cb1.data_ahead.xyz.2.1 +
            ((t - cb1.data_ahead.t : Int) : ℚ) / ((cb1.data_behind.t - cb1.data_ahead.t : Int) : ℚ)
              * (cb1.data_behind.xyz.2.1 - cb1.data_ahead.xyz.2.1),
          cb1.data_ahead.xyz.2.2 +
            ((t - cb1.data_ahead.t : Int) : ℚ) / ((cb1.data_behind.t - cb1.data_ahead.t : Int) : ℚ)
              * (cb1.data_behind.xyz.2.2 - cb1.data_ahead.xyz.2.2))) ∧
    (∀ (a0 b0 : OdomData) (rest : List OdomData) (t0 t1 t : Int),
      t0 < t1 → 2 * t = t0 + t1 →
      (CBoard.odom_at ⟨⟨(0, 0, 0), t0⟩ :: ⟨(10, 0, 0), t1⟩ :: rest, a0, b0⟩ t).map Prod.fst
        = some (5, 0, 0) ∧
      (CBoard.odom_at ⟨⟨(1, 2, 3), t0⟩ :: ⟨(3, 8, -5), t1⟩ :: rest, a0, b0⟩ t).map Prod.fst
        = some (2, 5, -1)) ∧
    (∀ (a0 b0 A B : OdomData) (rest : List OdomData) (t : Int),
      A.t ≤ t → t < B.t →
      (CBoard.odom_at ⟨A :: B :: rest, a0, b0⟩ t).map Prod.fst
        = some (A.xyz.1 + ((t - A.t : Int) : ℚ) / ((B.t - A.t : Int) : ℚ) * (B.xyz.1 - A.xyz.1),
            A.xyz.2.1 + ((t - A.t : Int) : ℚ) / ((B.t - A.t : Int) : ℚ)
              * (B.xyz.2.1 - A.xyz.2.1),
            A.xyz.2.2 + ((t - A.t : Int) : ℚ) / ((B.t - A.t : Int) : ℚ)
              * (B.xyz.2.2 - A.xyz.2.2))) ∧
    (∀ (a0 b0 A B : OdomData) (rest : List OdomData),
      A.t < B.t →
      (CBoard.odom_at ⟨A :: B :: rest, a0, b0⟩ A.t).map Prod.fst = some A.xyz) := by
  have hmidk : ∀ t0 t1 t : Int, t0 < t1 → 2 * t = t0 + t1 →
      ((t - t0 : Int) : ℚ) / ((t1 - t0 : Int) : ℚ) = 1 / 2 := by
    intro t0 t1 t h01 hmid
    have hd : ((t1 - t0 : Int) : ℚ) ≠ 0 := by
      have : t1 - t0 ≠ 0 := by omega
      exact_mod_cast this
    rw [div_eq_div_iff hd (by norm_num)]
    have : (t - t0) * 2 = 1 * (t1 - t0) := by omega
    exact_mod_cast this
  refine ⟨?_, ?_, ?_, ?_⟩
  · intro cb cb1 t r h
    simp only [CBoard.odom_at] at h
    cases hp : CBoard.popLoop t cb.queue
        (if cb.data_behind.t < t then cb.data_behind else cb.data_ahead) with
    | none =>
      rw [hp] at h
      exact absurd h (by simp)
    | some x =>
      obtain ⟨a, b, q⟩ := x
      rw [hp] at h
      simp only [Option.some.injEq, Prod.mk.injEq] at h
      obtain ⟨h1, h2⟩ := h
      rw [← h2, ← h1, seconds_div]
      simp only [interpolate, Prod.mk.injEq]
      refine ⟨?_, ?_, ?_⟩ <;> ring
  · intro a0 b0 rest t0 t1 t h01 hmid
    constructor
    · rw [odom_at_pair t ⟨(0, 0, 0), t0⟩ ⟨(10, 0, 0), t1⟩ a0 b0 rest
        (by show t0 ≤ t; omega) (by show t < t1; omega)]
      simp only [Option.map_some', hmidk t0 t1 t h01 hmid, interpolate]
      norm_num
    · rw [odom_at_pair t ⟨(1, 2, 3), t0⟩ ⟨(3, 8, -5), t1⟩ a0 b0 rest
        (by show t0 ≤ t; omega) (by show t < t1; omega)]
      simp only [Option.map_some', hmidk t0 t1 t h01 hmid, interpolate]
      norm_num
  · intro a0 b0 A B rest t hA hB
    rw [odom_at_pair t A B a0 b0 rest hA hB]
    simp only [Option.map_some', interpolate, Option.some.injEq, Prod.mk.injEq]
    refine ⟨?_, ?_, ?_⟩ <;> ring
  · intro a0 b0 A B rest hAB
    rw [odom_at_pair A.t A B a0 b0 rest (le_refl _) hAB]
    simp [interpolate]

theorem odom_at_interpolation_witness :
    (CBoard.odom_at ⟨[⟨(1, 2, 3), 10⟩, ⟨(2, 4, 7), 20⟩, ⟨(4, 0, 0), 30⟩],
      ⟨(0, 0, 0), 0⟩, ⟨(0, 0, 0), 0⟩⟩ 14).map Prod.fst = some (7 / 5, 14 / 5, 23 / 5) := by
  have h := odom_at_interpolation.2.2.1 ⟨(0, 0, 0), 0⟩ ⟨(0, 0, 0), 0⟩ ⟨(1, 2, 3), 10⟩
    ⟨(2, 4, 7), 20⟩ [⟨(4, 0, 0), 30⟩] 14 (by decide) (by decide)
  rw [h]
  norm_num

/-- C10, the code at the failing input.  With samples buffered at ticks 10, 20 and
30, the query at 15 leaves the pair (10, 20); the next query at 17, inside that
interval, pops the sample at 30 into `data_behind` and leaves the pair (10, 30),
although the buffered sample at 20 is the earliest one after 17 and lies strictly
between the two remembered samples; the position returned is interpolated over
(10, 30), 1 + 3 * 7/20, and not over (10, 20), 1 + 1 * 7/10. -/
theorem odom_at_second_query :
    ((threeSamples.queries [15]).map fun cb => (cb.data_ahead.t, cb.data_behind.t))
      = some (10, 20) ∧
    ((threeSamples.queries [15, 17]).map fun cb => (cb.data_ahead.t, cb.data_behind.t))
      = some (10, 30) ∧
    (((threeSamples.queries [15]).bind fun cb => cb.odom_at 17).map Prod.fst)
      = some (41 / 20, 0, 0) ∧
    (∃ s ∈ threeSamples.queue, (17 : Int) < s.t ∧ s.t < 30) := by
  refine ⟨?_, ?_, ?_, ?_⟩
  · simp [CBoard.queries, CBoard.odom_at, CBoard.popLoop, threeSamples, CBoard.init]
  · simp [CBoard.queries, CBoard.odom_at, CBoard.popLoop, threeSamples, CBoard.init]
  · simp [CBoard.queries, CBoard.odom_at, CBoard.popLoop, threeSamples, CBoard.init,
      interpolate, seconds]
    norm_num
  · exact ⟨⟨(2, 0, 0), 20⟩, by simp [threeSamples, CBoard.init], by decide, by decide⟩

/-! ## Blocking and the remembered pair -/

/-- The call is the loop, started from the sample chosen by the first line, followed
by the interpolation. -/
theorem odom_at_eq (cb : CBoard) (t : Int) :
    cb.odom_at t =
      (CBoard.popLoop t cb.queue
          (if cb.data_behind.t < t then cb.data_behind else cb.data_ahead)).map
        fun x => (interpolate x.1.xyz x.2.1.xyz
            (seconds (t - x.1.t) / seconds (x.2.1.t - x.1.t)),
          ({ queue := x.2.2, data_ahead := x.1, data_behind := x.2.1 } : CBoard)) := by
  simp only [CBoard.odom_at]
  cases CBoard.popLoop t cb.queue
      (if cb.data_behind.t < t then cb.data_behind else cb.data_ahead) with
  | none => rfl
  | some x => rfl

/-- The two renderings of the loop agree. -/
theorem popLoop_popState (t : Int) (q : List OdomData) : ∀ a b : OdomData,
    CBoard.popLoop t q a =
      if (CBoard.popState t q a b).2.2.2 = true then
        some ((CBoard.popState t q a b).1, (CBoard.popState t q a b).2.1,
          (CBoard.popState t q a b).2.2.1)
      else none := by
  induction q with
  | nil => intro a b; simp [CBoard.popLoop, CBoard.popState]
  | cons s rest ih =>
    intro a b
    by_cases h : s.t > t
    · simp [CBoard.popLoop, CBoard.popState, h]
    · simp only [CBoard.popLoop, CBoard.popState, h, if_false]
      exact ih s s

/-- A loop that leaves at the `break` has popped the samples up to and including the
first one after `t`. -/
theorem popLoop_some (t : Int) (q : List OdomData) : ∀ (a a1 b1 : OdomData)
    (rest : List OdomData), CBoard.popLoop t q a = some (a1, b1, rest) →
    ∃ pre : List OdomData, q = pre ++ b1 :: rest ∧ (∀ x ∈ pre, x.t ≤ t) ∧ t < b1.t ∧
      (a1 = a ∨ a1 ∈ pre) := by
  induction q with
  | nil => intro a a1 b1 rest h; simp [CBoard.popLoop] at h
  | cons s q ih =>
    intro a a1 b1 rest h
    by_cases hs : s.t > t
    · simp only [CBoard.popLoop, hs, if_true, Option.some.injEq, Prod.mk.injEq] at h
      obtain ⟨h1, h2, h3⟩ := h
      subst h1 h2 h3
      exact ⟨[], rfl, by simp, hs, Or.inl rfl⟩
    · simp only [CBoard.popLoop, hs, if_false] at h
      obtain ⟨pre, h1, h2, h3, h4⟩ := ih s a1 b1 rest h
      refine ⟨s :: pre, by simp [h1], ?_, h3, ?_⟩
      · intro x hx
        rcases List.mem_cons.1 hx with hx | hx
        · rw [hx]; omega
        · exact h2 x hx
      · right
        rcases h4 with h4 | h4
        · rw [h4]; exact List.mem_cons_self _ _
        · exact List.mem_cons_of_mem _ h4

/-- Without a sample after `t` the loop empties the queue and blocks. -/
theorem popState_blocked (t : Int) (q : List OdomData) : ∀ a b : OdomData,
    (∀ x ∈ q, x.t ≤ t) →
    (CBoard.popState t q a b).2.2.1 = [] ∧ (CBoard.popState t q a b).2.2.2 = false := by
  induction q with
  | nil => intro a b _; simp [CBoard.popState]
  | cons s q ih =>
    intro a b h
    have hs : ¬ s.t > t := by
      have := h s (List.mem_cons_self _ _)
      omega
    simp only [CBoard.popState, hs, if_false]
    exact ih s s (fun x hx => h x (List.mem_cons_of_mem _ hx))

/-- With a sample after `t` in the queue the loop leaves at the `break`. -/
theorem popLoop_isSome (t : Int) (q : List OdomData) : ∀ a : OdomData,
    (∃ x ∈ q, t < x.t) → (CBoard.popLoop t q a).isSome = true := by
  induction q with
  | nil => intro a h; simp at h
  | cons s q ih =>
    intro a h
    by_cases hs : s.t > t
    · simp [CBoard.popLoop, hs]
    · simp only [CBoard.popLoop, hs, if_false]
      apply ih
      obtain ⟨x, hx, hxt⟩ := h
      rcases List.mem_cons.1 hx with hx | hx
      · rw [hx] at hxt; omega
      · exact ⟨x, hx, hxt⟩

/-- C11. Extrapolation-free blocking, the queue being a finite list and a pop on the
empty queue a call that does not return.  For every memory, queue and `t`: when
`odom_at t` returns it has popped exactly the prefix of the queue up to and including
the first sample whose time point is after `t`, and that sample is `data_behind`; when
no queued sample is after `t` the call does not return and its loop stops with the
queue empty, whatever the remembered `data_behind` is; and with a queued sample after
`t` the call returns. -/
theorem odom_at_blocking (cb : CBoard) (t : Int) :
    (∀ (r : Vec3) (cb1 : CBoard), cb.odom_at t = some (r, cb1) →
      ∃ pre : List OdomData, cb.queue = pre ++ cb1.data_behind :: cb1.queue ∧
        (∀ x ∈ pre, x.t ≤ t) ∧ t < cb1.data_behind.t) ∧
    ((∀ x ∈ cb.queue, x.t ≤ t) →
      cb.odom_at t = none ∧
      (CBoard.popState t cb.queue
        (if cb.data_behind.t < t then cb.data_behind else cb.data_ahead)
        cb.data_behind).2.2.1 = [] ∧
      (CBoard.popState t cb.queue
        (if cb.data_behind.t < t then cb.data_behind else cb.data_ahead)
        cb.data_behind).2.2.2 = false) ∧
    ((∃ x ∈ cb.queue, t < x.t) → (cb.odom_at t).isSome = true) := by
  refine ⟨?_, ?_, ?_⟩
  · intro r cb1 h
    rw [odom_at_eq] at h
    cases hp : CBoard.popLoop t cb.queue
        (if cb.data_behind.t < t then cb.data_behind else cb.data_ahead) with
    | none => rw [hp] at h; simp at h
    | some x =>
      obtain ⟨a1, b1, rest⟩ := x
      rw [hp] at h
      simp only [Option.map_some', Option.some.injEq, Prod.mk.injEq] at h
      obtain ⟨pre, h1, h2, h3, _⟩ := popLoop_some t cb.queue _ a1 b1 rest hp
      rw [← h.2]
      exact ⟨pre, h1, h2, h3⟩
  · intro hall
    have hb := popState_blocked t cb.queue
      (if cb.data_behind.t < t then cb.data_behind else cb.data_ahead) cb.data_behind hall
    refine ⟨?_, hb.1, hb.2⟩
    rw [odom_at_eq, popLoop_popState t cb.queue _ cb.data_behind, hb.2]
    rfl
  · intro hex
    rw [odom_at_eq, Option.isSome_map']
    exact popLoop_isSome t cb.queue _ hex

theorem odom_at_blocking_witness :
    (∀ x ∈ ({ threeSamples with data_behind := ⟨(9, 9, 9), 50⟩ } : CBoard).queue, x.t ≤ 40) ∧
    ({ threeSamples with data_behind := ⟨(9, 9, 9), 50⟩ } : CBoard).odom_at 40 = none :=
  ⟨by simp [threeSamples, CBoard.init],
    ((odom_at_blocking { threeSamples with data_behind := ⟨(9, 9, 9), 50⟩ } 40).2.1
      (by simp [threeSamples, CBoard.init])).1⟩

/-- A call that returns, made at a time not before the remembered `data_ahead`, leaves
a pair that encloses the query time. -/
theorem odom_at_encloses (cb cb1 : CBoard) (t : Int) (r : Vec3)
    (ha : cb.data_ahead.t ≤ t) (h : cb.odom_at t = some (r, cb1)) :
    cb1.data_ahead.t ≤ t ∧ t < cb1.data_behind.t := by
  rw [odom_at_eq] at h
  cases hp : CBoard.popLoop t cb.queue
      (if cb.data_behind.t < t then cb.data_behind else cb.data_ahead) with
  | none => rw [hp] at h; simp at h
  | some x =>
    obtain ⟨a1, b1, rest⟩ := x
    rw [hp] at h
    simp only [Option.map_some', Option.some.injEq, Prod.mk.injEq] at h
    obtain ⟨pre, _, h2, h3, h4⟩ := popLoop_some t cb.queue _ a1 b1 rest hp
    rw [← h.2]
    refine ⟨?_, h3⟩
    show a1.t ≤ t
    rcases h4 with h4 | h4
    · rw [h4]
      split_ifs with hb
      · omega
      · exact ha
    · exact h2 a1 h4

/-- Along non-decreasing query times, none before the remembered `data_ahead`, every
call that returns leaves a pair that encloses its query time. -/
theorem trace_encloses (ts : List Int) : ∀ cb : CBoard, ts.Sorted (· ≤ ·) →
    (∀ u ∈ ts, cb.data_ahead.t ≤ u) →
    ∀ x ∈ cb.trace ts, x.2.data_ahead.t ≤ x.1 ∧ x.1 < x.2.data_behind.t := by
  induction ts with
  | nil => intro cb _ _ x hx; simp [CBoard.trace] at hx
  | cons t ts ih =>
    intro cb hs hu x hx
    cases ho : cb.odom_at t with
    | none => simp [CBoard.trace, ho] at hx
    | some r =>
      have hr : cb.odom_at t = some (r.1, r.2) := ho
      have he := odom_at_encloses cb r.2 t r.1 (hu t (List.mem_cons_self _ _)) hr
      simp only [CBoard.trace, ho, List.mem_cons] at hx
      rcases hx with hx | hx
      · rw [hx]; exact he
      · have hs2 := List.sorted_cons.1 hs
        exact ih r.2 hs2.2 (fun u hu2 => le_trans he.1 (hs2.1 u hu2)) x hx

/-- The time points at the division.  For every queue content, whatever the order of
its time points, and every non-decreasing sequence of query times none of which is
before the time point of the remembered `data_ahead` (for the constructed estimator
the default time point): each call that reaches the division does so with
`ahead.t ≤ t < behind.t`, so the divisor is positive and the factor `k` satisfies
`0 ≤ k < 1`.  The same holds for a single call on any queue, so also when samples are
pushed between the calls.  Nothing is said here about the positions that enter the
interpolation. -/
theorem odom_at_no_division_by_zero (cb : CBoard) (ts : List Int)
    (hs : ts.Sorted (· ≤ ·)) (hu : ∀ u ∈ ts, cb.data_ahead.t ≤ u) :
    (∀ x ∈ cb.trace ts,
      x.2.data_ahead.t ≤ x.1 ∧ x.1 < x.2.data_behind.t ∧
      0 < seconds (x.2.data_behind.t - x.2.data_ahead.t) ∧
      0 ≤ seconds (x.1 - x.2.data_ahead.t) / seconds (x.2.data_behind.t - x.2.data_ahead.t) ∧
      seconds (x.1 - x.2.data_ahead.t) / seconds (x.2.data_behind.t - x.2.data_ahead.t) < 1) ∧
    (∀ (c c1 : CBoard) (t : Int) (r : Vec3), c.data_ahead.t ≤ t →
      c.odom_at t = some (r, c1) → c1.data_ahead.t ≤ t ∧ t < c1.data_behind.t) := by
  refine ⟨?_, fun c c1 t r ha h => odom_at_encloses c c1 t r ha h⟩
  intro x hx
  obtain ⟨h1, h2⟩ := trace_encloses ts cb hs hu x hx
  have hd : (0 : ℚ) < ((x.2.data_behind.t - x.2.data_ahead.t : Int) : ℚ) := by
    have : (0 : Int) < x.2.data_behind.t - x.2.data_ahead.t := by omega
    exact_mod_cast this
  have hn : (0 : ℚ) ≤ ((x.1 - x.2.data_ahead.t : Int) : ℚ) := by
    have : (0 : Int) ≤ x.1 - x.2.data_ahead.t := by omega
    exact_mod_cast this
  have hlt : ((x.1 - x.2.data_ahead.t : Int) : ℚ)
      < ((x.2.data_behind.t - x.2.data_ahead.t : Int) : ℚ) := by
    have : x.1 - x.2.data_ahead.t < x.2.data_behind.t - x.2.data_ahead.t := by omega
    exact_mod_cast this
  refine ⟨h1, h2, ?_, ?_, ?_⟩
  · unfold seconds
    positivity
  · rw [seconds_div]
    exact div_nonneg hn (le_of_lt hd)
  · rw [seconds_div, div_lt_one hd]
    exact hlt

theorem odom_at_no_division_by_zero_witness :
    (threeSamples.trace [15, 17, 17]).map (fun x => (x.2.data_ahead.t, x.1, x.2.data_behind.t))
      = [(10, 15, 20), (10, 17, 30)] ∧
    ∀ x ∈ threeSamples.trace [15, 17, 17],
      x.2.data_ahead.t ≤ x.1 ∧ x.1 < x.2.data_behind.t ∧
      0 < seconds (x.2.data_behind.t - x.2.data_ahead.t) ∧
      0 ≤ seconds (x.1 - x.2.data_ahead.t) / seconds (x.2.data_behind.t - x.2.data_ahead.t) ∧
      seconds (x.1 - x.2.data_ahead.t) / seconds (x.2.data_behind.t - x.2.data_ahead.t) < 1 :=
  ⟨by simp [CBoard.trace, CBoard.odom_at, CBoard.popLoop, threeSamples, CBoard.init],
    (odom_at_no_division_by_zero threeSamples [15, 17, 17]
      (by simp [List.Sorted])
      (by simp [threeSamples, CBoard.init])).1⟩

/-- C12, the code at the failing input.  The estimator as constructed holds two
remembered samples whose positions were never initialised, `u` and `v` here.  With
one sample (1, 0, 0) buffered at tick 10, the first query at tick 5 copies the default
`data_behind` to `data_ahead`, pops the sample and reaches the division with
`0 ≤ 5 < 10` and `k = 1/2`; the position returned is `v + 1/2 * ((1, 0, 0) - v)`,
built from the never-initialised `v`: it is not between buffered samples, it changes
with `v`, and it is as large as `v` makes it. -/
theorem odom_at_default_position (u v : Vec3) :
    (({ CBoard.init u v with queue := [⟨(1, 0, 0), 10⟩] } : CBoard).odom_at 5).map
        (fun r => (r.1, r.2.data_ahead, r.2.data_behind))
      = some ((v.1 + 1 / 2 * (1 - v.1), v.2.1 + 1 / 2 * (0 - v.2.1),
          v.2.2 + 1 / 2 * (0 - v.2.2)), ⟨v, 0⟩, ⟨(1, 0, 0), 10⟩) ∧
    (({ CBoard.init u (2000001, 0, 0) with queue := [⟨(1, 0, 0), 10⟩] } : CBoard).odom_at
        5).map Prod.fst = some (1000001, 0, 0) ∧
    (({ CBoard.init u (-2000001, 0, 0) with queue := [⟨(1, 0, 0), 10⟩] } : CBoard).odom_at
        5).map Prod.fst = some (-1000000, 0, 0) := by
  have h : ∀ w : Vec3,
      (({ CBoard.init u w with queue := [⟨(1, 0, 0), 10⟩] } : CBoard).odom_at 5).map
        (fun r => (r.1, r.2.data_ahead, r.2.data_behind))
      = some ((w.1 + 1 / 2 * (1 - w.1), w.2.1 + 1 / 2 * (0 - w.2.1),
          w.2.2 + 1 / 2 * (0 - w.2.2)), ⟨w, 0⟩, ⟨(1, 0, 0), 10⟩) := by
    intro w
    simp only [CBoard.odom_at, CBoard.init, CBoard.popLoop, seconds_div]
    norm_num [interpolate]
    refine ⟨?_, ?_, ?_⟩ <;> ring
  refine ⟨h v, ?_, ?_⟩
  · have := congrArg (Option.map Prod.fst) (h (2000001, 0, 0))
    simp only [Option.map_map] at this
    rw [show (Prod.fst ∘ fun r : Vec3 × CBoard => (r.1, r.2.data_ahead, r.2.data_behind))
      = Prod.fst from rfl] at this
    rw [this]
    norm_num
  · have := congrArg (Option.map Prod.fst) (h (-2000001, 0, 0))
    simp only [Option.map_map] at this
    rw [show (Prod.fst ∘ fun r : Vec3 × CBoard => (r.1, r.2.data_ahead, r.2.data_behind))
      = Prod.fst from rfl] at this
    rw [this]
    norm_num

/-- One call on an estimator whose remembered pair is ordered and lies before a
strictly increasing queue: the pair stays ordered and before the rest of the queue,
and `data_ahead` does not move back. -/
theorem odom_at_ordered (cb cb1 : CBoard) (t : Int) (r : Vec3)
    (hab : cb.data_ahead.t ≤ cb.data_behind.t)
    (hbq : ∀ x ∈ cb.queue, cb.data_behind.t < x.t)
    (hq : cb.queue.Pairwise fun a b => a.t < b.t)
    (h : cb.odom_at t = some (r, cb1)) :
    cb.data_ahead.t ≤ cb1.data_ahead.t ∧
    cb1.data_ahead.t ≤ cb1.data_behind.t ∧
    (∀ x ∈ cb1.queue, cb1.data_behind.t < x.t) ∧
    (cb1.queue.Pairwise fun a b => a.t < b.t) := by
  rw [odom_at_eq] at h
  cases hp : CBoard.popLoop t cb.queue
      (if cb.data_behind.t < t then cb.data_behind else cb.data_ahead) with
  | none => rw [hp] at h; simp at h
  | some x =>
    obtain ⟨a1, b1, rest⟩ := x
    rw [hp] at h
    simp only [Option.map_some', Option.some.injEq, Prod.mk.injEq] at h
    obtain ⟨pre, h1, _, _, h4⟩ := popLoop_some t cb.queue _ a1 b1 rest hp
    rw [← h.2]
    rw [h1] at hq hbq
    have hq2 := List.pairwise_append.1 hq
    have hq3 := List.pairwise_cons.1 hq2.2.1
    have hb1 : cb.data_behind.t < b1.t := hbq b1 (by simp)
    refine ⟨?_, ?_, hq3.1, hq3.2⟩
    · show cb.data_ahead.t ≤ a1.t
      rcases h4 with h4 | h4
      · rw [h4]
        split_ifs
        · exact hab
        · exact le_refl _
      · have := hbq a1 (by simp [h4])
        omega
    · show a1.t ≤ b1.t
      rcases h4 with h4 | h4
      · rw [h4]
        split_ifs <;> omega
      · exact le_of_lt (hq2.2.2 a1 h4 b1 (by simp))

/-- The calls that return, on an estimator as in `odom_at_ordered`. -/
theorem trace_ordered (ts : List Int) : ∀ cb : CBoard,
    cb.data_ahead.t ≤ cb.data_behind.t →
    (∀ x ∈ cb.queue, cb.data_behind.t < x.t) →
    (cb.queue.Pairwise fun a b => a.t < b.t) →
    List.Chain (fun c1 c2 : CBoard => c1.data_ahead.t ≤ c2.data_ahead.t) cb
      ((cb.trace ts).map Prod.snd) ∧
    ∀ x ∈ cb.trace ts, x.2.data_ahead.t ≤ x.2.data_behind.t := by
  induction ts with
  | nil => intro cb _ _ _; simp [CBoard.trace]
  | cons t ts ih =>
    intro cb hab hbq hq
    cases ho : cb.odom_at t with
    | none => simp [CBoard.trace, ho]
    | some r =>
      have hr : cb.odom_at t = some (r.1, r.2) := ho
      obtain ⟨h1, h2, h3, h4⟩ := odom_at_ordered cb r.2 t r.1 hab hbq hq hr
      obtain ⟨i1, i2⟩ := ih r.2 h2 h3 h4
      simp only [CBoard.trace, ho, List.map_cons, List.chain_cons, List.mem_cons]
      refine ⟨⟨h1, i1⟩, ?_⟩
      intro x hx
      rcases hx with hx | hx
      · rw [hx]; exact h2
      · exact i2 x hx

/-- C15. No regression of the ahead pointer.  On an estimator whose queue has strictly
increasing time points, all after the time point of the remembered samples (the
default one for the constructed estimator), for queries at any times, those at
`t1, t2, ...` in order included: after each query that returns, the time point of
`data_ahead` is not before the one after the previous query (or before the first
query), and `data_ahead.t ≤ data_behind.t`. -/
theorem odom_at_ahead_monotone (cb : CBoard) (ts : List Int)
    (hab : cb.data_ahead.t ≤ cb.data_behind.t)
    (hbq : ∀ x ∈ cb.queue, cb.data_behind.t < x.t)
    (hq : cb.queue.Pairwise fun a b => a.t < b.t) :
    List.Chain (fun c1 c2 : CBoard => c1.data_ahead.t ≤ c2.data_ahead.t) cb
      ((cb.trace ts).map Prod.snd) ∧
    (∀ x ∈ cb.trace ts, x.2.data_ahead.t ≤ x.2.data_behind.t) ∧
    List.Chain (fun c1 c2 : CBoard => c1.data_ahead.t ≤ c2.data_ahead.t) cb
      ((cb.trace (cb.queue.map fun s => s.t)).map Prod.snd) ∧
    (∀ x ∈ cb.trace (cb.queue.map fun s => s.t), x.2.data_ahead.t ≤ x.2.data_behind.t) :=
  ⟨(trace_ordered ts cb hab hbq hq).1, (trace_ordered ts cb hab hbq hq).2,
    (trace_ordered _ cb hab hbq hq).1, (trace_ordered _ cb hab hbq hq).2⟩

theorem odom_at_ahead_monotone_witness :
    (threeSamples.trace (threeSamples.queue.map fun s => s.t)).map
        (fun x => (x.1, x.2.data_ahead.t, x.2.data_behind.t))
      = [(10, 10, 20), (20, 10, 30)] ∧
    List.Chain (fun c1 c2 : CBoard => c1.data_ahead.t ≤ c2.data_ahead.t) threeSamples
      ((threeSamples.trace (threeSamples.queue.map fun s => s.t)).map Prod.snd) :=
  ⟨by simp [CBoard.trace, CBoard.odom_at, CBoard.popLoop, threeSamples, CBoard.init],
    (odom_at_ahead_monotone threeSamples [10, 20, 30]
      (by simp [threeSamples, CBoard.init])
      (by simp [threeSamples, CBoard.init])
      (by simp [threeSamples, CBoard.init])).2.2.1⟩

/-! ## The wire formats -/

/-- The arithmetic shift by 8 is the floor division by 256. -/
theorem shiftRight8 (v : Int) : v >>> (8 : Nat) = v / 256 := by
  cases v with
  | ofNat n =>
    show Int.ofNat (n >>> 8) = _
    rw [Nat.shiftRight_eq_div_pow]
    rfl
  | negSucc n =>
    show Int.negSucc (n >>> 8) = _
    rw [Nat.shiftRight_eq_div_pow, Int.negSucc_ediv n (by norm_num), Int.negSucc_eq]
    simp
    rfl

/-- The expression `hi << 8 | lo` on two bytes. -/
theorem shiftLeft8_or (a b : Nat) (h : b < 256) : a <<< 8 ||| b = 256 * a + b := by
  rw [Nat.shiftLeft_eq, Nat.mul_comm, show (256 : Nat) = 2 ^ 8 from rfl,
    Nat.mul_add_lt_is_or (by simpa using h)]

/-- On 0..65535 the cast to `int16_t` is the two's-complement reading. -/
theorem int16_t_eq_s16 (n : Int) (h0 : 0 ≤ n) (h1 : n < 65536) : int16_t n = s16 n := by
  unfold int16_t s16
  split_ifs <;> omega

theorem int16_t_range (n : Int) : -32768 ≤ int16_t n ∧ int16_t n ≤ 32767 := by
  unfold int16_t
  omega

/-- The decoded coordinate of a byte pair. -/
theorem decode_pair (a b : Fin 256) :
    int16_t (((a.val <<< 8 ||| b.val : Nat) : Int)) = s16 (256 * (a.val : Int) + (b.val : Int)) := by
  rw [shiftLeft8_or a.val b.val b.isLt]
  have ha := a.isLt
  have hb := b.isLt
  rw [int16_t_eq_s16 _ (by omega) (by push_cast; omega)]
  push_cast
  rfl

/-- C13. Telemetry decode.  For a frame with identifier 0x101 and any payload,
`callback` appends exactly one sample, stamped with the clock reading, whose x, y, z
are `s16 (256 * data[0] + data[1]) / 1000`, `s16 (256 * data[2] + data[3]) / 1000` and
`s16 (256 * data[4] + data[5]) / 1000`, each between -32.768 and 32.767; a frame that
differs only in bytes 6 and 7 gives the same sample; a frame with any other identifier
leaves the object, and so the queue, as it was. -/
theorem callback_decode (cb : CBoard) (frame : can_frame) (now : Int) :
    (frame.can_id = 0x101 →
      (cb.callback frame now).queue = cb.queue ++
        [⟨((s16 (256 * ((frame.data 0).val : Int) + ((frame.data 1).val : Int)) : ℚ) / 1000,
           (s16 (256 * ((frame.data 2).val : Int) + ((frame.data 3).val : Int)) : ℚ) / 1000,
           (s16 (256 * ((frame.data 4).val : Int) + ((frame.data 5).val : Int)) : ℚ) / 1000),
          now⟩] ∧
      (cb.callback frame now).queue.length = cb.queue.length + 1 ∧
      (cb.callback frame now).data_ahead = cb.data_ahead ∧
      (cb.callback frame now).data_behind = cb.data_behind ∧
      (∀ a b : Fin 256,
        (-32768 / 1000 : ℚ) ≤ (s16 (256 * (a.val : Int) + (b.val : Int)) : ℚ) / 1000 ∧
        (s16 (256 * (a.val : Int) + (b.val : Int)) : ℚ) / 1000 ≤ 32767 / 1000) ∧
      (∀ frame2 : can_frame, frame2.can_id = 0x101 →
        (∀ i : Fin 8, i.val < 6 → frame2.data i = frame.data i) →
        cb.callback frame2 now = cb.callback frame now)) ∧
    (frame.can_id ≠ 0x101 → cb.callback frame now = cb) := by
  constructor
  · intro hid
    have hq : (cb.callback frame now).queue = cb.queue ++
        [⟨((s16 (256 * ((frame.data 0).val : Int) + ((frame.data 1).val : Int)) : ℚ) / 1000,
           (s16 (256 * ((frame.data 2).val : Int) + ((frame.data 3).val : Int)) : ℚ) / 1000,
           (s16 (256 * ((frame.data 4).val : Int) + ((frame.data 5).val : Int)) : ℚ) / 1000),
          now⟩] := by
      simp only [CBoard.callback, hid, ne_eq, not_true_eq_false, if_false, decode_pair]
    refine ⟨hq, ?_, ?_, ?_, ?_, ?_⟩
    · rw [hq]; simp
    · simp [CBoard.callback, hid]
    · simp [CBoard.callback, hid]
    · intro a b
      have ha := a.isLt
      have hb := b.isLt
      have h1 : (-32768 : Int) ≤ s16 (256 * (a.val : Int) + (b.val : Int)) := by
        unfold s16; split_ifs <;> omega
      have h2 : s16 (256 * (a.val : Int) + (b.val : Int)) ≤ (32767 : Int) := by
        unfold s16; split_ifs <;> omega
      constructor
      · apply div_le_div_of_nonneg_right _ (by norm_num)
        exact_mod_cast h1
      · apply div_le_div_of_nonneg_right _ (by norm_num)
        exact_mod_cast h2
    · intro frame2 hid2 hd
      simp only [CBoard.callback, hid, hid2, ne_eq, not_true_eq_false, if_false,
        hd 0 (by decide), hd 1 (by decide), hd 2 (by decide), hd 3 (by decide),
        hd 4 (by decide), hd 5 (by decide)]
  · intro hid
    simp [CBoard.callback, hid]

theorem callback_decode_witness :
    telemetryFrame.can_id = 0x101 ∧
    (threeSamples.callback telemetryFrame 77).queue = threeSamples.queue ++
      [⟨(-2 / 1000, 1 / 1000, -32768 / 1000), 77⟩] := by
  have hx : s16 (256 * ((telemetryFrame.data 0).val : Int)
      + ((telemetryFrame.data 1).val : Int)) = -2 := by decide
  have hy : s16 (256 * ((telemetryFrame.data 2).val : Int)
      + ((telemetryFrame.data 3).val : Int)) = 1 := by decide
  have hz : s16 (256 * ((telemetryFrame.data 4).val : Int)
      + ((telemetryFrame.data 5).val : Int)) = -32768 := by decide
  refine ⟨rfl, ?_⟩
  rw [((callback_decode threeSamples telemetryFrame 77).1 rfl).1, hx, hy, hz]
  norm_num

theorem u8_val (n : Int) : ((u8 n).val : Int) = n % 256 := by
  unfold u8
  simp only
  omega

/-- The two bytes written for a signed 16-bit value read back as that value. -/
theorem encode_pair (v : Int) (h0 : -32768 ≤ v) (h1 : v ≤ 32767) :
    s16 (256 * ((u8 (v >>> (8 : Nat))).val : Int) + ((u8 v).val : Int)) = v ∧
    int16_t ((((u8 (v >>> (8 : Nat))).val <<< 8 ||| (u8 v).val : Nat) : Int)) = v := by
  have h : s16 (256 * ((u8 (v >>> (8 : Nat))).val : Int) + ((u8 v).val : Int)) = v := by
    rw [u8_val, u8_val, shiftRight8]
    unfold s16
    split_ifs <;> omega
  exact ⟨h, by rw [decode_pair, h]⟩

/-- C14. Command encode.  For every command `send` builds a frame with identifier
0x100 and length 8 in which, for each of the four members in the order `weights_x`,
`weights_y`, `wood_x`, `wood_y`, with `v` the `int16_t` cast of the member, byte `2i`
is `(v >> 8) mod 256` (arithmetic shift) and byte `2i + 1` is `v mod 256`; `v` is in
-32768..32767 and reading the byte pair as the telemetry decoder does gives `v` back,
as it does for every `v` in that range. -/
theorem send_encode (command : Command) :
    (CBoard.send command).can_id = 0x100 ∧
    (CBoard.send command).can_dlc = 8 ∧
    (∀ i : Fin 4,
      (((CBoard.send command).data ⟨2 * i.val, by omega⟩).val : Int)
        = (int16_cast (![command.weights_x, command.weights_y, command.wood_x,
            command.wood_y] i) >>> (8 : Nat)) % 256 ∧
      (((CBoard.send command).data ⟨2 * i.val + 1, by omega⟩).val : Int)
        = int16_cast (![command.weights_x, command.weights_y, command.wood_x,
            command.wood_y] i) % 256 ∧
      -32768 ≤ int16_cast (![command.weights_x, command.weights_y, command.wood_x,
            command.wood_y] i) ∧
      int16_cast (![command.weights_x, command.weights_y, command.wood_x,
            command.wood_y] i) ≤ 32767 ∧
      s16 (256 * (((CBoard.send command).data ⟨2 * i.val, by omega⟩).val : Int)
          + (((CBoard.send command).data ⟨2 * i.val + 1, by omega⟩).val : Int))
        = int16_cast (![command.weights_x, command.weights_y, command.wood_x,
            command.wood_y] i) ∧
      int16_t (((((CBoard.send command).data ⟨2 * i.val, by omega⟩).val <<< 8 |||
          ((CBoard.send command).data ⟨2 * i.val + 1, by omega⟩).val : Nat) : Int))
        = int16_cast (![command.weights_x, command.weights_y, command.wood_x,
            command.wood_y] i)) ∧
    (∀ v : Int, -32768 ≤ v → v ≤ 32767 →
      s16 (256 * ((u8 (v >>> (8 : Nat))).val : Int) + ((u8 v).val : Int)) = v) := by
  refine ⟨rfl, rfl, ?_, fun v h0 h1 => (encode_pair v h0 h1).1⟩
  intro i
  have hr : ∀ q : ℚ, -32768 ≤ int16_cast q ∧ int16_cast q ≤ 32767 :=
    fun q => int16_t_range _
  fin_cases i
  · exact ⟨u8_val _, u8_val _, (hr _).1, (hr _).2, (encode_pair _ (hr _).1 (hr _).2).1,
      (encode_pair _ (hr _).1 (hr _).2).2⟩
  · exact ⟨u8_val _, u8_val _, (hr _).1, (hr _).2, (encode_pair _ (hr _).1 (hr _).2).1,
      (encode_pair _ (hr _).1 (hr _).2).2⟩
  · exact ⟨u8_val _, u8_val _, (hr _).1, (hr _).2, (encode_pair _ (hr _).1 (hr _).2).1,
      (encode_pair _ (hr _).1 (hr _).2).2⟩
  · exact ⟨u8_val _, u8_val _, (hr _).1, (hr _).2, (encode_pair _ (hr _).1 (hr _).2).1,
      (encode_pair _ (hr _).1 (hr _).2).2⟩

theorem send_encode_witness :
    (-32768 : Int) ≤ -2 ∧ (-2 : Int) ≤ 32767 ∧
    s16 (256 * ((u8 ((-2 : Int) >>> (8 : Nat))).val : Int) + ((u8 (-2 : Int)).val : Int)) = -2 :=
  ⟨by norm_num, by norm_num,
    (send_encode ⟨-2, 300, 3 / 2, true⟩).2.2.2 (-2) (by norm_num) (by norm_num)⟩

end io

namespace auto_crane

open io (Command)

/-! ## The height table and the two readiness policies -/

/-- C16. Target height table: `get_target_z` is `safe_height` in `FOR_APPROX`,
`FOR_WEIGHTS`, `AFTER_CRAWL`, `FOR_WOOD` and `AFTER_PLACE`, `crawl_height` in
`BEFORE_CRAWL` and `CRAWLING`, and in `BEFORE_PLACE` and `PLACING`
`short_place_height` for a `SHORT_WOOD` target and `tall_place_height` for every other
category, `NONE` included.  It only returns a height: the function is translated
without a resulting object because its body assigns no member. -/
theorem get_target_z_table (d : Decider) (target : Target) :
    ((d.state = State.FOR_APPROX ∨ d.state = State.FOR_WEIGHTS ∨ d.state = State.AFTER_CRAWL ∨
        d.state = State.FOR_WOOD ∨ d.state = State.AFTER_PLACE) →
      d.get_target_z target = d.safe_height) ∧
    ((d.state = State.BEFORE_CRAWL ∨ d.state = State.CRAWLING) →
      d.get_target_z target = d.crawl_height) ∧
    ((d.state = State.BEFORE_PLACE ∨ d.state = State.PLACING) →
      (target.name = TargetName.SHORT_WOOD →
        d.get_target_z target = d.short_place_height) ∧
      (target.name ≠ TargetName.SHORT_WOOD →
        d.get_target_z target = d.tall_place_height) ∧
      d.get_target_z Target.none = d.tall_place_height) := by
  refine ⟨?_, ?_, ?_⟩
  · intro h
    simp [Decider.get_target_z, h]
  · intro h
    rcases h with h | h <;> simp [Decider.get_target_z, h]
  · intro h
    have h1 : ¬ (d.state = State.FOR_APPROX ∨ d.state = State.FOR_WEIGHTS ∨
        d.state = State.AFTER_CRAWL ∨ d.state = State.FOR_WOOD ∨
        d.state = State.AFTER_PLACE) := by
      rcases h with h | h <;> simp [h]
    have h2 : ¬ (d.state = State.BEFORE_CRAWL ∨ d.state = State.CRAWLING) := by
      rcases h with h | h <;> simp [h]
    simp only [Decider.get_target_z, if_neg h1, if_neg h2]
    refine ⟨fun h3 => if_pos h3, fun h3 => if_neg h3, ?_⟩
    exact if_neg (by simp [Target.none])

theorem get_target_z_table_witness :
    afterPlace5.get_target_z ⟨(1, 2), TargetName.SHORT_WOOD⟩ = afterPlace5.safe_height ∧
    ({ afterPlace5 with state := State.PLACING } : Decider).get_target_z
      ⟨(1, 2), TargetName.SHORT_WOOD⟩ = afterPlace5.short_place_height :=
  ⟨(get_target_z_table afterPlace5 ⟨(1, 2), TargetName.SHORT_WOOD⟩).1
      (Or.inr (Or.inr (Or.inr (Or.inr rfl)))),
    ((get_target_z_table { afterPlace5 with state := State.PLACING }
      ⟨(1, 2), TargetName.SHORT_WOOD⟩).2.2 (Or.inr rfl)).1 rfl⟩

/-- In a servo state `judge` does not read the poses. -/
theorem judge_servo_pose (d : Decider) (p1 q1 p2 q2 : Vec3) (s : Bool) (jd : ℚ)
    (hs : d.state.servo = true) : d.judge p1 q1 s jd = d.judge p2 q2 s jd := by
  by_cases h : d.servo_count + 1 > 5 ∧ s = true
  · rw [judge_servo_true d p1 q1 s jd hs h, judge_servo_true d p2 q2 s jd hs h]
  · rw [judge_servo_false d p1 q1 s jd hs h, judge_servo_false d p2 q2 s jd hs h]

/-- Outside the servo states `judge` does not read the signal and returns the object
as it was. -/
theorem judge_distance_signal (d : Decider) (p q : Vec3) (s1 s2 : Bool) (jd : ℚ)
    (hs : d.state.servo = false) :
    d.judge p q s1 jd = d.judge p q s2 jd ∧ (d.judge p q s1 jd).2 = d := by
  have hn : ¬ (d.state = State.CRAWLING ∨ d.state = State.AFTER_CRAWL ∨
      d.state = State.FOR_WOOD ∨ d.state = State.BEFORE_PLACE) := by
    rw [← servo_iff, hs]; simp
  simp only [Decider.judge, if_neg hn]
  split_ifs <;> simp

theorem state_machine_servo_count (d : Decider) (b : Bool) :
    (d.state_machine b).servo_count = d.servo_count := by
  cases b with
  | false => rw [state_machine_false]
  | true =>
    by_cases h : d.shift_count + 1 > d.min_shift_count
    · simp only [Decider.state_machine, h]
      cases hs : d.state <;> simp
    · rw [state_machine_true_count d h]

/-- A non-sentinel `decide` is determined by the object it leaves. -/
theorem decide_eq_of_decided (d : Decider) (p1 p2 : Vec3) (off : Vec2)
    (targets : List Target) (s1 s2 : Bool) (h : off.1 ≠ 1000000)
    (hd : d.decided p1 off targets s1 = d.decided p2 off targets s2) :
    d.decide p1 off targets s1 = d.decide p2 off targets s2 := by
  apply Prod.ext
  · rw [decide_fst d p1 off targets s1 h, decide_fst d p2 off targets s2 h, hd]
  · rw [decide_snd d p1 off targets s1 h, decide_snd d p2 off targets s2 h, hd]

/-- C17. The two readiness policies do not mix.  For a non-sentinel offset and a
target list: in a servo state (`CRAWLING`, `AFTER_CRAWL`, `FOR_WOOD`, `BEFORE_PLACE`)
the command and the object after `decide`, so the state, `shift_count`, `servo_count`
and `circle_count`, are the same for every two gripper poses; in every other state they
are the same for every two values of the signal, and `servo_count` is left as it
was. -/
theorem decide_noninterference (d : Decider) (off : Vec2) (targets : List Target)
    (h : off.1 ≠ 1000000) :
    (d.state.servo = true → ∀ (p1 p2 : Vec3) (s : Bool),
      d.decide p1 off targets s = d.decide p2 off targets s ∧
      (d.decide p1 off targets s).2.state = (d.decide p2 off targets s).2.state ∧
      (d.decide p1 off targets s).2.shift_count = (d.decide p2 off targets s).2.shift_count ∧
      (d.decide p1 off targets s).2.servo_count = (d.decide p2 off targets s).2.servo_count ∧
      (d.decide p1 off targets s).2.circle_count
        = (d.decide p2 off targets s).2.circle_count) ∧
    (d.state.servo = false → ∀ (p : Vec3) (s1 s2 : Bool),
      d.decide p off targets s1 = d.decide p off targets s2 ∧
      (d.decide p off targets s1).2.state = (d.decide p off targets s2).2.state ∧
      (d.decide p off targets s1).2.shift_count = (d.decide p off targets s2).2.shift_count ∧
      (d.decide p off targets s1).2.servo_count = (d.decide p off targets s2).2.servo_count ∧
      (d.decide p off targets s1).2.circle_count
        = (d.decide p off targets s2).2.circle_count ∧
      (d.decide p off targets s1).2.servo_count = d.servo_count) := by
  constructor
  · intro hs p1 p2 s
    have e : d.decide p1 off targets s = d.decide p2 off targets s := by
      apply decide_eq_of_decided d p1 p2 off targets s s h
      simp only [Decider.decided]
      rw [judge_servo_pose d p1 _ p2 _ s _ hs]
    rw [e]
    exact ⟨rfl, rfl, rfl, rfl, rfl⟩
  · intro hs p s1 s2
    have e : d.decide p off targets s1 = d.decide p off targets s2 := by
      apply decide_eq_of_decided d p p off targets s1 s2 h
      simp only [Decider.decided]
      rw [(judge_distance_signal d p _ s1 s2 _ hs).1]
    refine ⟨e, by rw [e], by rw [e], by rw [e], by rw [e], ?_⟩
    rw [decide_snd d p off targets s1 h]
    simp only [Decider.decided]
    rw [state_machine_servo_count, (judge_distance_signal d p _ s1 s1 _ hs).2]

theorem decide_noninterference_witness :
    ((1, 0) : Vec2).1 ≠ 1000000 ∧ crawling0.state.servo = true ∧
    crawling0.decide (0, 0, 0) (1, 0) [] true = crawling0.decide (5, 6, 7) (1, 0) [] true :=
  ⟨by norm_num, rfl,
    ((decide_noninterference crawling0 (1, 0) [] (by norm_num)).1 rfl (0, 0, 0) (5, 6, 7)
      true).1⟩

/-! ## The reachable states -/

/-- What `judge` leaves alone, and what it does to `servo_count`. -/
theorem judge_frame (d : Decider) (p q : Vec3) (s : Bool) (jd : ℚ) :
    (d.judge p q s jd).2.min_shift_count = d.min_shift_count ∧
    (d.judge p q s jd).2.shift_count = d.shift_count ∧
    (d.judge p q s jd).2.circle_count = d.circle_count ∧
    (d.judge p q s jd).2.tall_place_height = d.tall_place_height ∧
    (d.state.servo = true →
      ((d.judge p q s jd).1 = true ∧ (d.judge p q s jd).2.servo_count = 0) ∨
      ((d.judge p q s jd).1 = false ∧
        (d.judge p q s jd).2.servo_count = d.servo_count + 1)) ∧
    (d.state.servo = false → (d.judge p q s jd).2.servo_count = d.servo_count) := by
  cases hs : d.state.servo with
  | true =>
    by_cases h : d.servo_count + 1 > 5 ∧ s = true
    · rw [judge_servo_true d p q s jd hs h]; simp
    · rw [judge_servo_false d p q s jd hs h]; simp
  | false =>
    rw [(judge_distance_signal d p q s s jd hs).2]; simp

/-- The invariant of the reachable states is kept by a non-sentinel `decide`, and a
call that changes the state leaves both debounce counters at 0. -/
theorem decided_invariant (d : Decider) (p : Vec3) (off : Vec2) (targets : List Target)
    (s : Bool) (hmin : d.min_shift_count = 5) (h1 : 0 ≤ d.shift_count)
    (h2 : d.shift_count ≤ 5) (h3 : 1 ≤ d.circle_count)
    (h4 : d.state ≠ State.FOR_APPROX → 2 ≤ d.circle_count) (h5 : 0 ≤ d.servo_count)
    (h6 : d.state.servo = false → d.servo_count = 0) :
    (d.decided p off targets s).min_shift_count = 5 ∧
    0 ≤ (d.decided p off targets s).shift_count ∧
    (d.decided p off targets s).shift_count ≤ 5 ∧
    1 ≤ (d.decided p off targets s).circle_count ∧
    ((d.decided p off targets s).state ≠ State.FOR_APPROX →
      2 ≤ (d.decided p off targets s).circle_count) ∧
    0 ≤ (d.decided p off targets s).servo_count ∧
    ((d.decided p off targets s).state.servo = false →
      (d.decided p off targets s).servo_count = 0) ∧
    ((d.decided p off targets s).state ≠ d.state →
      (d.decided p off targets s).shift_count = 0 ∧
      (d.decided p off targets s).servo_count = 0) := by
  simp only [Decider.decided]
  generalize hq : ((d.target2odo (d.choose_target targets) off).1,
    (d.target2odo (d.choose_target targets) off).2,
    d.get_target_z (d.choose_target targets)) = q
  obtain ⟨f1, f2, f3, _, f5, f6⟩ := judge_frame d p q s (2 / 100)
  have fs := judge_state d p q s (2 / 100)
  generalize d.judge p q s (2 / 100) = r at *
  obtain ⟨b, e⟩ := r
  simp only at f1 f2 f3 f5 f6 fs ⊢
  have hsc : 0 ≤ e.servo_count := by
    cases hs : d.state.servo with
    | true => rcases f5 hs with ⟨_, h⟩ | ⟨_, h⟩ <;> omega
    | false => rw [f6 hs]; exact h5
  have hsv : e.state.servo = false → e.servo_count = 0 := by
    intro h
    rw [fs] at h
    rw [f6 h]; exact h6 h
  cases b with
  | false =>
    rw [state_machine_false]
    refine ⟨by omega, by omega, by omega, by omega, ?_, hsc, hsv, ?_⟩
    · rw [fs, f3]; exact h4
    · intro h; exact absurd fs h
  | true =>
    have hs0 : e.servo_count = 0 := by
      cases hs : d.state.servo with
      | true =>
        rcases f5 hs with ⟨_, h⟩ | ⟨h, _⟩
        · exact h
        · simp at h
      | false => rw [f6 hs]; exact h6 hs
    by_cases hgt : e.shift_count + 1 > e.min_shift_count
    · obtain ⟨g1, g2⟩ := state_machine_true_shift e hgt
      have g3 := state_machine_true_circle e
      have g4 := state_machine_min e true
      have g5 := state_machine_servo_count e true
      refine ⟨by omega, by omega, by omega, ?_, ?_, by omega, ?_, ?_⟩
      · rw [g3]; split_ifs <;> omega
      · intro _
        rw [g3]
        by_cases ha : e.state = State.FOR_APPROX
        · rw [if_pos ⟨ha, hgt⟩]; omega
        · have := h4 (by rw [← fs]; exact ha)
          rw [if_neg (fun hh => ha hh.1)]; omega
      · intro _; omega
      · intro _; exact ⟨g2, by omega⟩
    · rw [state_machine_true_count e hgt]
      simp only
      refine ⟨by omega, by omega, by omega, by omega, ?_, hsc, hsv, ?_⟩
      · rw [fs, f3]; exact h4
      · intro h; exact absurd fs h

/-- The invariant of the reachable states, for every sequence of `decide` calls. -/
theorem decides_invariant (ins : List (Vec3 × Vec2 × List Target × Bool)) :
    ∀ d : Decider, d.min_shift_count = 5 → 0 ≤ d.shift_count → d.shift_count ≤ 5 →
    1 ≤ d.circle_count → (d.state ≠ State.FOR_APPROX → 2 ≤ d.circle_count) →
    0 ≤ d.servo_count → (d.state.servo = false → d.servo_count = 0) →
    (d.decides ins).min_shift_count = 5 ∧ 0 ≤ (d.decides ins).shift_count ∧
    (d.decides ins).shift_count ≤ 5 ∧ 1 ≤ (d.decides ins).circle_count ∧
    ((d.decides ins).state ≠ State.FOR_APPROX → 2 ≤ (d.decides ins).circle_count) ∧
    0 ≤ (d.decides ins).servo_count ∧
    ((d.decides ins).state.servo = false → (d.decides ins).servo_count = 0) := by
  induction ins with
  | nil => intro d a1 a2 a3 a4 a5 a6 a7; exact ⟨a1, a2, a3, a4, a5, a6, a7⟩
  | cons i is ih =>
    intro d a1 a2 a3 a4 a5 a6 a7
    simp only [Decider.decides]
    by_cases hoff : i.2.1.1 = 1000000
    · rw [(decide_sentinel d i.1 i.2.1 i.2.2.1 i.2.2.2 hoff).1]
      exact ih d a1 a2 a3 a4 a5 a6 a7
    · rw [decide_snd d i.1 i.2.1 i.2.2.1 i.2.2.2 hoff]
      obtain ⟨b1, b2, b3, b4, b5, b6, b7, _⟩ :=
        decided_invariant d i.1 i.2.1 i.2.2.1 i.2.2.2 a1 a2 a3 a4 a5 a6 a7
      exact ih _ b1 b2 b3 b4 b5 b6 b7

theorem init_decides_invariant (sh ch sp tp xb yb : ℚ)
    (ins : List (Vec3 × Vec2 × List Target × Bool)) :
    ((Decider.init sh ch sp tp xb yb).decides ins).min_shift_count = 5 ∧
    0 ≤ ((Decider.init sh ch sp tp xb yb).decides ins).shift_count ∧
    ((Decider.init sh ch sp tp xb yb).decides ins).shift_count ≤ 5 ∧
    1 ≤ ((Decider.init sh ch sp tp xb yb).decides ins).circle_count ∧
    (((Decider.init sh ch sp tp xb yb).decides ins).state ≠ State.FOR_APPROX →
      2 ≤ ((Decider.init sh ch sp tp xb yb).decides ins).circle_count) ∧
    0 ≤ ((Decider.init sh ch sp tp xb yb).decides ins).servo_count ∧
    (((Decider.init sh ch sp tp xb yb).decides ins).state.servo = false →
      ((Decider.init sh ch sp tp xb yb).decides ins).servo_count = 0) :=
  decides_invariant ins (Decider.init sh ch sp tp xb yb) rfl (by simp [Decider.init])
    (by simp [Decider.init]) (by simp [Decider.init]) (by simp [Decider.init])
    (by simp [Decider.init]) (by simp [Decider.init])

/-- In the wood states with `circle_count ≥ 2` the chosen target is the `TALL_WOOD`
waypoint or the default target. -/
theorem choose_target_wood (d : Decider) (targets : List Target)
    (hs : d.state = State.FOR_WOOD ∨ d.state = State.BEFORE_PLACE ∨
      d.state = State.PLACING ∨ d.state = State.AFTER_PLACE)
    (hc : 2 ≤ d.circle_count) :
    (d.circle_count = 2 →
      d.choose_target targets = ⟨(2205 / 1000, -755 / 1000), TargetName.TALL_WOOD⟩) ∧
    (d.circle_count ≠ 2 → d.choose_target targets = Target.none) ∧
    (d.choose_target targets).name ≠ TargetName.SHORT_WOOD := by
  have h1 : d.state ≠ State.FOR_APPROX := by
    rcases hs with h | h | h | h <;> rw [h] <;> decide
  have h2 : ¬ (d.state = State.FOR_WEIGHTS ∨ d.state = State.BEFORE_CRAWL ∨
      d.state = State.CRAWLING ∨ d.state = State.AFTER_CRAWL) := by
    rcases hs with h | h | h | h <;> rw [h] <;> decide
  have h3 : d.circle_count ≠ 1 := by omega
  simp only [Decider.choose_target, if_neg h1, if_neg h2, if_neg h3]
  refine ⟨fun h => if_pos h, fun h => if_neg h, ?_⟩
  split_ifs <;> simp [Target.none]

/-- C18. The `SHORT_WOOD` waypoint is unreachable.  In every state reached from the
constructed Decider by `decide` calls, `circle_count ≥ 1`, and `circle_count ≥ 2`
when the state is not `FOR_APPROX`; so in `FOR_WOOD`, `BEFORE_PLACE`, `PLACING` and
`AFTER_PLACE` `choose_target` never returns the `SHORT_WOOD` waypoint (1.2, 0): it
returns the `TALL_WOOD` waypoint while `circle_count` is 2, the first cycle, and the
`NONE` target afterwards; and a `decide` that ends in `BEFORE_PLACE` or `PLACING`
returns `tall_place_height` as z. -/
theorem short_wood_unreachable (sh ch sp tp xb yb : ℚ)
    (ins : List (Vec3 × Vec2 × List Target × Bool)) (d : Decider)
    (hd : d = (Decider.init sh ch sp tp xb yb).decides ins) :
    1 ≤ d.circle_count ∧
    (d.state ≠ State.FOR_APPROX → 2 ≤ d.circle_count) ∧
    ((d.state = State.FOR_WOOD ∨ d.state = State.BEFORE_PLACE ∨ d.state = State.PLACING ∨
        d.state = State.AFTER_PLACE) → ∀ targets : List Target,
      d.choose_target targets ≠ ⟨(12 / 10, 0), TargetName.SHORT_WOOD⟩ ∧
      (d.choose_target targets).name ≠ TargetName.SHORT_WOOD ∧
      (d.circle_count = 2 →
        d.choose_target targets = ⟨(2205 / 1000, -755 / 1000), TargetName.TALL_WOOD⟩) ∧
      (d.circle_count ≠ 2 → d.choose_target targets = Target.none)) ∧
    (∀ (p : Vec3) (off : Vec2) (targets : List Target) (s : Bool), off.1 ≠ 1000000 →
      ((d.decide p off targets s).2.state = State.BEFORE_PLACE ∨
        (d.decide p off targets s).2.state = State.PLACING) →
      (d.decide p off targets s).1.z = d.tall_place_height) := by
  obtain ⟨_, _, _, i4, i5, _, _⟩ := init_decides_invariant sh ch sp tp xb yb ins
  rw [← hd] at i4 i5
  refine ⟨i4, i5, ?_, ?_⟩
  · intro hs targets
    have hne : d.state ≠ State.FOR_APPROX := by
      rcases hs with h | h | h | h <;> rw [h] <;> decide
    obtain ⟨c1, c2, c3⟩ := choose_target_wood d targets hs (i5 hne)
    refine ⟨?_, c3, c1, c2⟩
    intro h
    rw [h] at c3
    exact c3 rfl
  · intro p off targets s hoff hpost
    rw [decide_snd d p off targets s hoff] at hpost
    rw [decide_fst d p off targets s hoff]
    have hpre : d.state = State.FOR_WOOD ∨ d.state = State.BEFORE_PLACE ∨
        d.state = State.PLACING ∨ d.state = State.AFTER_PLACE := by
      rcases decided_state d p off targets s with h | h <;> rw [h] at hpost <;>
        revert hpost <;> cases d.state <;> simp [State.next]
    have hne : d.state ≠ State.FOR_APPROX := by
      rcases hpre with h | h | h | h <;> rw [h] <;> decide
    have hname := (choose_target_wood d targets hpre (i5 hne)).2.2
    have htall : (d.decided p off targets s).tall_place_height = d.tall_place_height := by
      simp only [Decider.decided]
      rw [(state_machine_heights _ _).2.2.2, (judge_frame _ _ _ _ _).2.2.2.1]
    rcases hpost with h | h <;> rw [h] <;> simp only [if_neg hname, htall]

/-- C19. Counter invariant of the reachable states.  In every state reached from the
constructed Decider by `decide` calls, `0 ≤ shift_count ≤ 5 = min_shift_count` and
`servo_count ≥ 0`; `servo_count` is 0 when the state is `FOR_APPROX`, `FOR_WEIGHTS`,
`BEFORE_CRAWL`, `PLACING` or `AFTER_PLACE`; and after a `decide` call that changes the
state both `shift_count` and `servo_count` are 0. -/
theorem counter_invariant (sh ch sp tp xb yb : ℚ)
    (ins : List (Vec3 × Vec2 × List Target × Bool)) (d : Decider)
    (hd : d = (Decider.init sh ch sp tp xb yb).decides ins) :
    d.min_shift_count = 5 ∧ 0 ≤ d.shift_count ∧ d.shift_count ≤ d.min_shift_count ∧
    0 ≤ d.servo_count ∧
    ((d.state = State.FOR_APPROX ∨ d.state = State.FOR_WEIGHTS ∨
        d.state = State.BEFORE_CRAWL ∨ d.state = State.PLACING ∨
        d.state = State.AFTER_PLACE) → d.servo_count = 0) ∧
    (∀ (p : Vec3) (off : Vec2) (targets : List Target) (s : Bool),
      (d.decide p off targets s).2.state ≠ d.state →
      (d.decide p off targets s).2.shift_count = 0 ∧
      (d.decide p off targets s).2.servo_count = 0) := by
  obtain ⟨i1, i2, i3, i4, i5, i6, i7⟩ := init_decides_invariant sh ch sp tp xb yb ins
  rw [← hd] at i1 i2 i3 i4 i5 i6 i7
  refine ⟨i1, i2, by omega, i6, ?_, ?_⟩
  · intro hs
    apply i7
    rcases hs with h | h | h | h | h <;> rw [h] <;> rfl
  · intro p off targets s hch
    by_cases hoff : off.1 = 1000000
    · rw [(decide_sentinel d p off targets s hoff).1] at hch
      exact absurd rfl hch
    · rw [decide_snd d p off targets s hoff] at hch ⊢
      exact (decided_invariant d p off targets s i1 i2 i3 i4 i5 i6 i7).2.2.2.2.2.2.2 hch

theorem counter_invariant_witness :
    ((Decider.init 1 0 0 0 0 0).decides [((0, 0, 0), (1, 0), [], true)]).shift_count
      ≤ ((Decider.init 1 0 0 0 0 0).decides [((0, 0, 0), (1, 0), [], true)]).min_shift_count :=
  (counter_invariant 1 0 0 0 0 0 [((0, 0, 0), (1, 0), [], true)] _ rfl).2.2.1

/-! ## The two debounce levels together -/

/-- A non-sentinel `decide` in a servo state. -/
theorem servo_decided (d : Decider) (p : Vec3) (off : Vec2) (targets : List Target)
    (s : Bool) (hs : d.state.servo = true) :
    d.decided p off targets s =
      if d.servo_count + 1 > 5 ∧ s = true then
        ({ d with servo_count := 0 } : Decider).state_machine true
      else { d with servo_count := d.servo_count + 1 } := by
  simp only [Decider.decided]
  by_cases h : d.servo_count + 1 > 5 ∧ s = true
  · rw [judge_servo_true d p _ s _ hs h, if_pos h]
  · rw [judge_servo_false d p _ s _ hs h, if_neg h, state_machine_false]

/-- In a servo state the state is held as long as fewer than 36 calls have been made
since it was entered: `k` bounds the calls already made, six per counted success plus
those counted by `servo_count`. -/
theorem servo_hold (ins : List (Vec3 × Vec2 × List Target × Bool)) :
    ∀ (d : Decider) (k : Int), d.state.servo = true → d.min_shift_count = 5 →
    0 ≤ d.shift_count → 0 ≤ d.servo_count → 6 * d.shift_count + min d.servo_count 6 ≤ k →
    k + ins.length ≤ 35 → (d.decides ins).state = d.state := by
  induction ins with
  | nil => intro d k _ _ _ _ _ _; rfl
  | cons i is ih =>
    intro d k hs hmin h1 h2 hk hlen
    simp only [List.length_cons, Nat.cast_add, Nat.cast_one] at hlen
    simp only [Decider.decides]
    by_cases hoff : i.2.1.1 = 1000000
    · rw [(decide_sentinel d i.1 i.2.1 i.2.2.1 i.2.2.2 hoff).1]
      exact ih d (k + 1) hs hmin h1 h2 (by omega) (by omega)
    · rw [decide_snd d i.1 i.2.1 i.2.2.1 i.2.2.2 hoff, servo_decided d _ _ _ _ hs]
      have hm : min d.servo_count 6 ≤ d.servo_count := min_le_left _ _
      have hm6 : min d.servo_count 6 ≤ 6 := min_le_right _ _
      by_cases hc : d.servo_count + 1 > 5 ∧ i.2.2.2 = true
      · rw [if_pos hc]
        have h5 : 5 ≤ min d.servo_count 6 := le_min (by omega) (by norm_num)
        have hng : ¬ ({ d with servo_count := 0 } : Decider).shift_count + 1
            > ({ d with servo_count := 0 } : Decider).min_shift_count := by
          show ¬ d.shift_count + 1 > d.min_shift_count
          omega
        rw [state_machine_true_count _ hng]
        have := ih ({ d with servo_count := 0, shift_count := d.shift_count + 1 } : Decider)
          (k + 1) hs hmin (by show 0 ≤ d.shift_count + 1; omega) (le_refl _)
          (by show 6 * (d.shift_count + 1) + min 0 6 ≤ k + 1; simp; omega) (by omega)
        exact this
      · rw [if_neg hc]
        have hm1 : min (d.servo_count + 1) 6 ≤ min d.servo_count 6 + 1 := by
          rcases le_total d.servo_count 6 with h | h
          · rw [min_eq_left h]; exact le_trans (min_le_left _ _) (le_refl _)
          · rw [min_eq_right h]; exact le_trans (min_le_right _ _) (by norm_num)
        have := ih ({ d with servo_count := d.servo_count + 1 } : Decider) (k + 1) hs hmin h1
          (by show 0 ≤ d.servo_count + 1; omega)
          (by show 6 * d.shift_count + min (d.servo_count + 1) 6 ≤ k + 1; omega) (by omega)
        exact this

/-- In a servo state, with the signal true on every call and no sentinel offset, the
call that completes 36 calls since the state was entered moves to the next state. -/
theorem servo_advance (ins : List (Vec3 × Vec2 × List Target × Bool)) :
    ∀ d : Decider, d.state.servo = true → d.min_shift_count = 5 →
    0 ≤ d.shift_count → d.shift_count ≤ 5 → 0 ≤ d.servo_count → d.servo_count ≤ 5 →
    (∀ i ∈ ins, i.2.1.1 ≠ 1000000 ∧ i.2.2.2 = true) →
    6 * d.shift_count + d.servo_count + ins.length = 36 →
    (d.decides ins).state = d.state.next := by
  induction ins with
  | nil =>
    intro d _ _ _ _ _ _ _ hlen
    simp at hlen
    omega
  | cons i is ih =>
    intro d hs hmin h1 h2 h3 h4 hall hlen
    simp only [List.length_cons, Nat.cast_add, Nat.cast_one] at hlen
    obtain ⟨hoff, hsig⟩ := hall i (List.mem_cons_self _ _)
    have hall2 : ∀ j ∈ is, j.2.1.1 ≠ 1000000 ∧ j.2.2.2 = true :=
      fun j hj => hall j (List.mem_cons_of_mem _ hj)
    simp only [Decider.decides]
    rw [decide_snd d i.1 i.2.1 i.2.2.1 i.2.2.2 hoff, servo_decided d _ _ _ _ hs]
    by_cases hc : d.servo_count + 1 > 5
    · rw [if_pos ⟨hc, hsig⟩]
      by_cases hsh : d.shift_count + 1 > 5
      · have hgt : ({ d with servo_count := 0 } : Decider).shift_count + 1
            > ({ d with servo_count := 0 } : Decider).min_shift_count := by
          show d.shift_count + 1 > d.min_shift_count
          omega
        have his : is = [] := by
          apply List.eq_nil_of_length_eq_zero
          omega
        rw [his]
        exact (state_machine_true_shift _ hgt).1
      · have hng : ¬ ({ d with servo_count := 0 } : Decider).shift_count + 1
            > ({ d with servo_count := 0 } : Decider).min_shift_count := by
          show ¬ d.shift_count + 1 > d.min_shift_count
          omega
        rw [state_machine_true_count _ hng]
        exact ih ({ d with servo_count := 0, shift_count := d.shift_count + 1 } : Decider)
          hs hmin (by show 0 ≤ d.shift_count + 1; omega)
          (by show d.shift_count + 1 ≤ 5; omega) (le_refl _) (by norm_num) hall2
          (by show 6 * (d.shift_count + 1) + 0 + (is.length : Int) = 36; omega)
    · rw [if_neg (fun h => hc h.1)]
      exact ih ({ d with servo_count := d.servo_count + 1 } : Decider) hs hmin h1 h2
        (by show 0 ≤ d.servo_count + 1; omega) (by show d.servo_count + 1 ≤ 5; omega) hall2
        (by show 6 * d.shift_count + (d.servo_count + 1) + (is.length : Int) = 36; omega)

/-- C20. The two debounce levels in a servo state.  For a Decider reached from the
constructed one that is in `CRAWLING`, `AFTER_CRAWL`, `FOR_WOOD` or `BEFORE_PLACE`
with `shift_count = 0` and `servo_count = 0`: whatever the inputs of the following
`decide` calls, the state is unchanged after each of the first 35 of them; and with 36
calls, none with the sentinel offset and all with the signal true, the state after
the 36th call is the next state. -/
theorem servo_two_level_debounce (sh ch sp tp xb yb : ℚ)
    (ins0 ins : List (Vec3 × Vec2 × List Target × Bool)) (d : Decider)
    (hd : d = (Decider.init sh ch sp tp xb yb).decides ins0)
    (hs : d.state.servo = true) (h0 : d.shift_count = 0) (h1 : d.servo_count = 0) :
    (∀ k : Nat, k ≤ 35 → (d.decides (ins.take k)).state = d.state) ∧
    (ins.length = 36 → (∀ i ∈ ins, i.2.1.1 ≠ 1000000 ∧ i.2.2.2 = true) →
      (d.decides ins).state = d.state.next ∧ d.state.next ≠ d.state) := by
  have hmin : d.min_shift_count = 5 := by
    rw [hd]; exact (init_decides_invariant sh ch sp tp xb yb ins0).1
  constructor
  · intro k hk
    apply servo_hold (ins.take k) d 0 hs hmin (by omega) (by omega)
      (by rw [h0, h1]; simp)
    have : (ins.take k).length ≤ k := by
      rw [List.length_take]; exact min_le_left _ _
    omega
  · intro hlen hall
    refine ⟨servo_advance ins d hs hmin (by omega) (by omega) (by omega) (by omega) hall
      (by rw [h0, h1, hlen]; norm_num), ?_⟩
    revert hs
    cases d.state <;> simp [State.servo, State.next]

theorem decides_append (is js : List (Vec3 × Vec2 × List Target × Bool)) :
    ∀ d : Decider, d.decides (is ++ js) = (d.decides is).decides js := by
  induction is with
  | nil => intro d; rfl
  | cons i is ih => intro d; simp only [List.cons_append, Decider.decides]; exact ih _

/-- Outside the servo states, a non-sentinel `decide` with the gripper within the
judge distance of the target pose counts as a success. -/
theorem decided_at_target (d : Decider) (p : Vec3) (off : Vec2) (targets : List Target)
    (s : Bool) (hs : d.state.servo = false)
    (hp : distSq p ((d.target2odo (d.choose_target targets) off).1,
      (d.target2odo (d.choose_target targets) off).2,
      d.get_target_z (d.choose_target targets)) ≤ (2 / 100) ^ 2) :
    d.decided p off targets s = d.state_machine true := by
  have hn : ¬ (d.state = State.CRAWLING ∨ d.state = State.AFTER_CRAWL ∨
      d.state = State.FOR_WOOD ∨ d.state = State.BEFORE_PLACE) := by
    rw [← servo_iff, hs]; simp
  have hc : (0 : ℚ) ≤ 2 / 100 ∧ distSq p ((d.target2odo (d.choose_target targets) off).1,
      (d.target2odo (d.choose_target targets) off).2,
      d.get_target_z (d.choose_target targets)) ≤ (2 / 100) ^ 2 := ⟨by norm_num, hp⟩
  simp only [Decider.decided, Decider.judge, if_neg hn, if_pos hc]

/-- Successes below the threshold, the gripper staying at the target. -/
theorem decides_at_target (p : Vec3) (off : Vec2) (targets : List Target) (s : Bool)
    (hoff : off.1 ≠ 1000000) (n : Nat) :
    ∀ d : Decider, d.state.servo = false → d.min_shift_count = 5 →
    d.shift_count + n ≤ 5 →
    distSq p ((d.target2odo (d.choose_target targets) off).1,
      (d.target2odo (d.choose_target targets) off).2,
      d.get_target_z (d.choose_target targets)) ≤ (2 / 100) ^ 2 →
    d.decides (List.replicate n (p, off, targets, s))
      = { d with shift_count := d.shift_count + n } := by
  induction n with
  | zero => intro d _ _ _ _; simp [Decider.decides]
  | succ n ih =>
    intro d hs hmin hle hp
    simp only [List.replicate_succ, Decider.decides]
    rw [decide_snd d p off targets s hoff, decided_at_target d p off targets s hs hp,
      state_machine_true_count d (by rw [hmin]; push_cast at hle; omega)]
    rw [ih ({ d with shift_count := d.shift_count + 1 } : Decider) hs hmin
      (by show d.shift_count + 1 + (n : Int) ≤ 5; push_cast at hle; omega) hp]
    simp only [Decider.mk.injEq, true_and, and_true]
    push_cast
    omega

/-- Six successes in a row from a fresh counter: the sixth advances the state. -/
theorem six_at_target (d : Decider) (p : Vec3) (off : Vec2) (targets : List Target)
    (s : Bool) (hoff : off.1 ≠ 1000000) (hs : d.state.servo = false)
    (hmin : d.min_shift_count = 5) (h0 : d.shift_count = 0)
    (hp : distSq p ((d.target2odo (d.choose_target targets) off).1,
      (d.target2odo (d.choose_target targets) off).2,
      d.get_target_z (d.choose_target targets)) ≤ (2 / 100) ^ 2) :
    d.decides (List.replicate 6 (p, off, targets, s))
      = ({ d with shift_count := 5 } : Decider).state_machine true := by
  rw [show (6 : Nat) = 5 + 1 from rfl, List.replicate_succ', decides_append,
    decides_at_target p off targets s hoff 5 d hs hmin (by rw [h0]; norm_num) hp]
  simp only [Decider.decides, h0]
  rw [decide_snd _ p off targets s hoff]
  exact decided_at_target _ p off targets s hs hp

theorem reach_crawling : (Decider.init 1 0 0 0 0 0).decides toCrawling = crawling0 := by
  have e1 : (Decider.init 1 0 0 0 0 0).decides
      (List.replicate 6 ((6375 / 10000, 0, 1), (0, 0), [], false))
      = { Decider.init 1 0 0 0 0 0 with state := State.FOR_WEIGHTS, circle_count := 2 } := by
    rw [six_at_target (Decider.init 1 0 0 0 0 0) (6375 / 10000, 0, 1) (0, 0) [] false
      (by norm_num) rfl rfl rfl
      (by simp [distSq, Decider.target2odo, Decider.choose_target, Decider.get_target_z,
        Decider.init]; positivity)]
    simp [Decider.state_machine, Decider.init]
  have e2 : ({ Decider.init 1 0 0 0 0 0 with
        state := State.FOR_WEIGHTS, circle_count := 2 } : Decider).decides
      (List.replicate 6 ((0, 0, 1), (0, 0), [], false))
      = { Decider.init 1 0 0 0 0 0 with state := State.BEFORE_CRAWL, circle_count := 2 } := by
    rw [six_at_target { Decider.init 1 0 0 0 0 0 with
        state := State.FOR_WEIGHTS, circle_count := 2 } (0, 0, 1) (0, 0) [] false
      (by norm_num) rfl rfl rfl
      (by simp [distSq, Decider.target2odo, Decider.choose_target, Decider.get_target_z,
        Decider.init, Target.none]; positivity)]
    simp [Decider.state_machine, Decider.init]
  have e3 : ({ Decider.init 1 0 0 0 0 0 with
        state := State.BEFORE_CRAWL, circle_count := 2 } : Decider).decides
      (List.replicate 6 ((0, 0, 0), (0, 0), [], false))
      = crawling0 := by
    rw [six_at_target { Decider.init 1 0 0 0 0 0 with
        state := State.BEFORE_CRAWL, circle_count := 2 } (0, 0, 0) (0, 0) [] false
      (by norm_num) rfl rfl rfl
      (by simp [distSq, Decider.target2odo, Decider.choose_target, Decider.get_target_z,
        Decider.init, Target.none]; positivity)]
    simp [Decider.state_machine, Decider.init, crawling0]
  rw [toCrawling, decides_append, decides_append, e1, e2, e3]

theorem servo_two_level_debounce_witness :
    (crawling0.decides
      ((List.replicate 36 (((0, 0, 0) : Vec3), ((0, 0) : Vec2), ([] : List Target), true)).take
        35)).state = crawling0.state ∧
    (crawling0.decides
      (List.replicate 36 (((0, 0, 0) : Vec3), ((0, 0) : Vec2), ([] : List Target), true))).state
      = crawling0.state.next := by
  have h := servo_two_level_debounce 1 0 0 0 0 0 toCrawling
    (List.replicate 36 (((0, 0, 0) : Vec3), ((0, 0) : Vec2), ([] : List Target), true))
    crawling0 reach_crawling.symm rfl rfl rfl
  refine ⟨h.1 35 (le_refl _), (h.2 (by simp) ?_).1⟩
  intro i hi
  rw [List.eq_of_mem_replicate hi]
  exact ⟨by norm_num, rfl⟩

/-- In a servo state, with the signal true on every call and no sentinel offset, the
call that completes 36 calls since the state was entered leaves the object in the
next state with both debounce counters at 0 and nothing else changed. -/
theorem servo_advance_object (ins : List (Vec3 × Vec2 × List Target × Bool)) :
    ∀ d : Decider, d.state.servo = true → d.min_shift_count = 5 →
    0 ≤ d.shift_count → d.shift_count ≤ 5 → 0 ≤ d.servo_count → d.servo_count ≤ 5 →
    (∀ i ∈ ins, i.2.1.1 ≠ 1000000 ∧ i.2.2.2 = true) →
    6 * d.shift_count + d.servo_count + ins.length = 36 →
    d.decides ins = { d with state := d.state.next, shift_count := 0, servo_count := 0 } := by
  induction ins with
  | nil =>
    intro d _ _ _ _ _ _ _ hlen
    simp at hlen
    omega
  | cons i is ih =>
    intro d hs hmin h1 h2 h3 h4 hall hlen
    simp only [List.length_cons, Nat.cast_add, Nat.cast_one] at hlen
    obtain ⟨hoff, hsig⟩ := hall i (List.mem_cons_self _ _)
    have hall2 : ∀ j ∈ is, j.2.1.1 ≠ 1000000 ∧ j.2.2.2 = true :=
      fun j hj => hall j (List.mem_cons_of_mem _ hj)
    simp only [Decider.decides]
    rw [decide_snd d i.1 i.2.1 i.2.2.1 i.2.2.2 hoff, servo_decided d _ _ _ _ hs]
    by_cases hc : d.servo_count + 1 > 5
    · rw [if_pos ⟨hc, hsig⟩]
      by_cases hsh : d.shift_count + 1 > 5
      · have hgt : d.shift_count + 1 > d.min_shift_count := by omega
        have his : is = [] := by
          apply List.eq_nil_of_length_eq_zero
          omega
        rw [his]
        simp only [Decider.decides, Decider.state_machine, hgt]
        revert hs
        cases d.state <;> simp [State.servo, State.next]
      · have hng : ¬ ({ d with servo_count := 0 } : Decider).shift_count + 1
            > ({ d with servo_count := 0 } : Decider).min_shift_count := by
          show ¬ d.shift_count + 1 > d.min_shift_count
          omega
        rw [state_machine_true_count _ hng]
        exact ih ({ d with servo_count := 0, shift_count := d.shift_count + 1 } : Decider)
          hs hmin (by show 0 ≤ d.shift_count + 1; omega)
          (by show d.shift_count + 1 ≤ 5; omega) (le_refl _) (by norm_num) hall2
          (by show 6 * (d.shift_count + 1) + 0 + (is.length : Int) = 36; omega)
    · rw [if_neg (fun h => hc h.1)]
      exact ih ({ d with servo_count := d.servo_count + 1 } : Decider) hs hmin h1 h2
        (by show 0 ≤ d.servo_count + 1; omega) (by show d.servo_count + 1 ≤ 5; omega) hall2
        (by show 6 * d.shift_count + (d.servo_count + 1) + (is.length : Int) = 36; omega)

/-- The constructed Decider with unit safe height and any place heights, after the
eighteen calls of `toCrawling`. -/
theorem reach_crawling_heights (sp tp : ℚ) :
    (Decider.init 1 0 sp tp 0 0).decides toCrawling
      = { Decider.init 1 0 sp tp 0 0 with state := State.CRAWLING, circle_count := 2 } := by
  have e1 : (Decider.init 1 0 sp tp 0 0).decides
      (List.replicate 6 ((6375 / 10000, 0, 1), (0, 0), [], false))
      = { Decider.init 1 0 sp tp 0 0 with state := State.FOR_WEIGHTS, circle_count := 2 } := by
    rw [six_at_target (Decider.init 1 0 sp tp 0 0) (6375 / 10000, 0, 1) (0, 0) [] false
      (by norm_num) rfl rfl rfl
      (by simp [distSq, Decider.target2odo, Decider.choose_target, Decider.get_target_z,
        Decider.init]; positivity)]
    simp [Decider.state_machine, Decider.init]
  have e2 : ({ Decider.init 1 0 sp tp 0 0 with
        state := State.FOR_WEIGHTS, circle_count := 2 } : Decider).decides
      (List.replicate 6 ((0, 0, 1), (0, 0), [], false))
      = { Decider.init 1 0 sp tp 0 0 with state := State.BEFORE_CRAWL, circle_count := 2 } := by
    rw [six_at_target { Decider.init 1 0 sp tp 0 0 with
        state := State.FOR_WEIGHTS, circle_count := 2 } (0, 0, 1) (0, 0) [] false
      (by norm_num) rfl rfl rfl
      (by simp [distSq, Decider.target2odo, Decider.choose_target, Decider.get_target_z,
        Decider.init, Target.none]; positivity)]
    simp [Decider.state_machine, Decider.init]
  have e3 : ({ Decider.init 1 0 sp tp 0 0 with
        state := State.BEFORE_CRAWL, circle_count := 2 } : Decider).decides
      (List.replicate 6 ((0, 0, 0), (0, 0), [], false))
      = { Decider.init 1 0 sp tp 0 0 with state := State.CRAWLING, circle_count := 2 } := by
    rw [six_at_target { Decider.init 1 0 sp tp 0 0 with
        state := State.BEFORE_CRAWL, circle_count := 2 } (0, 0, 0) (0, 0) [] false
      (by norm_num) rfl rfl rfl
      (by simp [distSq, Decider.target2odo, Decider.choose_target, Decider.get_target_z,
        Decider.init, Target.none]; positivity)]
    simp [Decider.state_machine, Decider.init]
  rw [toCrawling, decides_append, decides_append, e1, e2, e3]

/-- After the 126 calls of `toBeforePlace` the constructed Decider is in
`BEFORE_PLACE` on its second circle with fresh counters. -/
theorem reach_before_place (sp tp : ℚ) :
    (Decider.init 1 0 sp tp 0 0).decides toBeforePlace
      = { Decider.init 1 0 sp tp 0 0 with state := State.BEFORE_PLACE, circle_count := 2 } := by
  have hall : ∀ i ∈ List.replicate 36
      (((0, 0, 0) : Vec3), ((0, 0) : Vec2), ([] : List Target), true),
      i.2.1.1 ≠ 1000000 ∧ i.2.2.2 = true := by
    intro i hi
    rw [List.eq_of_mem_replicate hi]
    exact ⟨by norm_num, rfl⟩
  have e4 : ({ Decider.init 1 0 sp tp 0 0 with
        state := State.CRAWLING, circle_count := 2 } : Decider).decides
      (List.replicate 36 ((0, 0, 0), (0, 0), [], true))
      = { Decider.init 1 0 sp tp 0 0 with state := State.AFTER_CRAWL, circle_count := 2 } :=
    servo_advance_object _ { Decider.init 1 0 sp tp 0 0 with
        state := State.CRAWLING, circle_count := 2 } rfl rfl (by simp [Decider.init])
      (by simp [Decider.init]) (by simp [Decider.init]) (by simp [Decider.init]) hall
      (by simp [Decider.init])
  have e5 : ({ Decider.init 1 0 sp tp 0 0 with
        state := State.AFTER_CRAWL, circle_count := 2 } : Decider).decides
      (List.replicate 36 ((0, 0, 0), (0, 0), [], true))
      = { Decider.init 1 0 sp tp 0 0 with state := State.FOR_WOOD, circle_count := 2 } :=
    servo_advance_object _ { Decider.init 1 0 sp tp 0 0 with
        state := State.AFTER_CRAWL, circle_count := 2 } rfl rfl (by simp [Decider.init])
      (by simp [Decider.init]) (by simp [Decider.init]) (by simp [Decider.init]) hall
      (by simp [Decider.init])
  have e6 : ({ Decider.init 1 0 sp tp 0 0 with
        state := State.FOR_WOOD, circle_count := 2 } : Decider).decides
      (List.replicate 36 ((0, 0, 0), (0, 0), [], true))
      = { Decider.init 1 0 sp tp 0 0 with state := State.BEFORE_PLACE, circle_count := 2 } :=
    servo_advance_object _ { Decider.init 1 0 sp tp 0 0 with
        state := State.FOR_WOOD, circle_count := 2 } rfl rfl (by simp [Decider.init])
      (by simp [Decider.init]) (by simp [Decider.init]) (by simp [Decider.init]) hall
      (by simp [Decider.init])
  rw [toBeforePlace, decides_append, reach_crawling_heights, decides_append, e4,
    decides_append, e5, e6]

theorem short_wood_unreachable_witness :
    ((Decider.init 1 0 3 7 0 0).decides toBeforePlace).state = State.BEFORE_PLACE ∧
    ((Decider.init 1 0 3 7 0 0).decides toBeforePlace).choose_target
        [⟨(5, 5), TargetName.SHORT_WOOD⟩]
      = ⟨(2205 / 1000, -755 / 1000), TargetName.TALL_WOOD⟩ ∧
    ((Decider.init 1 0 3 7 0 0).decides toBeforePlace).choose_target
        [⟨(5, 5), TargetName.SHORT_WOOD⟩]
      ≠ ⟨(12 / 10, 0), TargetName.SHORT_WOOD⟩ ∧
    (((Decider.init 1 0 3 7 0 0).decides toBeforePlace).decide (0, 0, 0) (0, 0)
        [⟨(5, 5), TargetName.SHORT_WOOD⟩] false).1.z = 7 := by
  have hst : ((Decider.init 1 0 3 7 0 0).decides toBeforePlace).state
      = State.BEFORE_PLACE := by rw [reach_before_place]
  have hcc : ((Decider.init 1 0 3 7 0 0).decides toBeforePlace).circle_count = 2 := by
    rw [reach_before_place]
  have h := short_wood_unreachable 1 0 3 7 0 0 toBeforePlace _ rfl
  have hw := h.2.2.1 (Or.inr (Or.inl hst)) [⟨(5, 5), TargetName.SHORT_WOOD⟩]
  refine ⟨hst, hw.2.2.1 hcc, hw.1, ?_⟩
  rw [h.2.2.2 (0, 0, 0) (0, 0) [⟨(5, 5), TargetName.SHORT_WOOD⟩] false (by norm_num)]
  · rw [reach_before_place]
    rfl
  · left
    rw [reach_before_place]
    rw [decide_snd _ _ _ _ _ (by norm_num),
      servo_decided { Decider.init 1 0 3 7 0 0 with
        state := State.BEFORE_PLACE, circle_count := 2 } _ _ _ _ rfl]
    simp

end auto_crane
